import Mathlib

/-!
# node-leveldb: the database handle

A shallow embedding of `src/cpp/handle.cc`, the binding between the host
(V8 / node) and the storage engine (leveldb).  Every host entry point of the
file comes in up to three pieces, as in the source:

* the call on the host thread, `JHandle::X(const Arguments&)`, which checks the
  arguments and either throws or creates and submits an op;
* the worker phase, `JHandle::X(XOp*)`, which calls the engine;
* the completion phase, `JHandle::X(XOp*, error, result)`, which turns the
  engine's answer into the two callback arguments.

C++ overloads share one name; here the host call keeps the name, the worker
phase is `XWork` and the completion phase is `XAfter`.

The engine (leveldb), V8 and node's `ObjectWrap` are external libraries and are
modelled by what their public surface does.  The headers of the binding itself
that are not part of the sources at hand (`helpers.h`, `options.h`,
`operation.h`, `batch.h`) appear as parameters (`Helpers`) or as definitions
marked as taken from the specification.
-/

namespace NodeLevelDB

/-! ## Machine integers -/

/-- The constant `INT_MAX` of `<limits.h>` for a 32-bit `int`. -/
def INT_MAX : Nat := 2147483647

/-- Conversion of an unsigned quantity to a 32-bit `int` (two's complement):
the low 32 bits, read as a signed number. -/
def toInt (n : Nat) : Int :=
  if n % 2 ^ 32 < 2 ^ 31 then ((n % 2 ^ 32 : Nat) : Int) else ((n % 2 ^ 32 : Nat) : Int) - 2 ^ 32

/-- The cast `static_cast<uint32_t>(x)` of a 64-bit unsigned quantity. -/
def toUInt32 (n : Nat) : Nat := n % 2 ^ 32

/-! ## The engine surface (leveldb) -/

/-- Byte strings: the contents of a `leveldb::Slice`, a `std::string` or a
node `Buffer`. -/
abbrev Bytes := List Nat

/-- The status codes of `leveldb::Status`. -/
inductive Code where
  | kOk
  | kNotFound
  | kCorruption
  | kNotSupported
  | kInvalidArgument
  | kIOError
  deriving DecidableEq, Repr

/-- A `leveldb::Status`: a code and the message text attached to it. -/
structure Status where
  code : Code
  msg : String
  deriving DecidableEq, Repr

namespace Status

/-- The default-constructed status, which is a success. -/
def OK : Status := { code := Code.kOk, msg := "" }

/-- The method `Status::ok()`. -/
def ok (s : Status) : Bool := decide (s.code = Code.kOk)

/-- The method `Status::IsNotFound()`. -/
def IsNotFound (s : Status) : Bool := decide (s.code = Code.kNotFound)

/-- The method `Status::ToString()`: the text `OK`, or the name of the code
followed by the message. -/
def ToString (s : Status) : String :=
  match s.code with
  | Code.kOk => "OK"
  | Code.kNotFound => "NotFound: " ++ s.msg
  | Code.kCorruption => "Corruption: " ++ s.msg
  | Code.kNotSupported => "Not implemented: " ++ s.msg
  | Code.kInvalidArgument => "Invalid argument: " ++ s.msg
  | Code.kIOError => "IO error: " ++ s.msg

end Status

/-- The struct `leveldb::Options`, with the engine's defaults. -/
structure Options where
  create_if_missing : Bool := false
  error_if_exists : Bool := false
  paranoid_checks : Bool := false
  write_buffer_size : Nat := 4194304
  max_open_files : Nat := 1000
  block_size : Nat := 4096
  block_restart_interval : Nat := 16
  compression : Bool := true
  deriving DecidableEq, Repr

/-- The struct `leveldb::ReadOptions`, with the engine's defaults; `snapshot`
is the snapshot pointer, absent when null. -/
structure ReadOptions where
  verify_checksums : Bool := false
  fill_cache : Bool := true
  snapshot : Option Nat := none
  deriving DecidableEq, Repr

/-- The struct `leveldb::WriteOptions`, with the engine's defaults. -/
structure WriteOptions where
  sync : Bool := false
  deriving DecidableEq, Repr

/-- A `leveldb::Range`: the pair of slices `(start, limit)`. -/
structure Range where
  start : Bytes
  limit : Bytes
  deriving DecidableEq, Repr

/-- One record of a `leveldb::WriteBatch`. -/
inductive BatchOp where
  | put (key value : Bytes)
  | del (key : Bytes)
  deriving DecidableEq, Repr

/-- The free functions of the engine used by the static methods.  Pointers to
native objects (`leveldb::DB*`) are natural numbers. -/
structure Engine where
  Open : Options → String → Status × Nat
  DestroyDB : String → Options → Status
  RepairDB : String → Options → Status

/-- The methods of an open `leveldb::DB` that the handle calls, as the engine
answers them at the moment of the call.  `GetApproximateSize` is the size the
engine reports for one range; the engine fills `sizes[i]` from `range[i]`. -/
structure DB where
  Get : ReadOptions → Bytes → Status × Bytes
  Write : WriteOptions → List BatchOp → Status
  NewIterator : ReadOptions → Nat
  GetSnapshot : Nat
  GetProperty : String → Bool × String
  GetApproximateSize : Range → Nat

/-- The method `DB::GetApproximateSizes(range, n, sizes)`: `sizes[i]` is the
engine's size of `range[i]`, for `i < n`. -/
def DB.GetApproximateSizes (db : DB) (ranges : List Range) (n : Int) : List Nat :=
  (ranges.take n.toNat).map db.GetApproximateSize

/-! ## Host values (V8) -/

/-- The host values the binding tells apart.  `number v` is the `Number` made
by `static_cast<double>(v)` from the 64-bit count `v`; `error m` is
`Exception::Error(String::New(m))`, the text of the engine being free of NUL
characters; `handle db cmp` is a `JHandle` instance wrapping the native
database `db`; `iterator it` is a `JIterator` instance wrapping `it`;
`external p` is `External::New(p)`.  An array has a length and, at every
index, an element or a hole. -/
inductive Value where
  | undefined
  | null
  | boolean (b : Bool)
  | integer (v : Int)
  | number (v : Nat)
  | string (s : String)
  | error (message : String)
  | buffer (bytes : Bytes)
  | function (id : Nat)
  | external (ptr : Nat)
  | batch (ptr : Nat)
  | handle (db : Nat) (comparator : Option Value)
  | iterator (it : Nat)
  | object (id : Nat)
  | array (length : Nat) (elems : Nat → Option Value)

namespace Value

/-- The test `value->IsString()`. -/
def IsString : Value → Bool
  | string _ => true
  | _ => false

/-- The test `value->IsFunction()`. -/
def IsFunction : Value → Bool
  | function _ => true
  | _ => false

/-- The test `value->IsArray()`. -/
def IsArray : Value → Bool
  | array _ _ => true
  | _ => false

/-- The test `value->IsExternal()`. -/
def IsExternal : Value → Bool
  | external _ => true
  | _ => false

/-- The test `value->IsObject()`. -/
def IsObject : Value → Bool
  | error _ => true
  | buffer _ => true
  | function _ => true
  | batch _ => true
  | handle _ _ => true
  | iterator _ => true
  | object _ => true
  | array _ _ => true
  | _ => false

/-- The test `Buffer::HasInstance(value)`. -/
def IsBuffer : Value → Bool
  | buffer _ => true
  | _ => false

/-- The test `JBatch::HasInstance(value)`. -/
def IsBatch : Value → Bool
  | batch _ => true
  | _ => false

/-- The pointer read by `External::Unwrap(value)`; null for any other value. -/
def Unwrap : Value → Nat
  | external p => p
  | _ => 0

/-- The pointer read by `ObjectWrap::Unwrap<JBatch>(value->ToObject())`. -/
def UnwrapBatch : Value → Nat
  | batch p => p
  | _ => 0

/-- The text read by `*String::Utf8Value(value)`. -/
def Utf8Value : Value → String
  | string s => s
  | _ => ""

/-- The result of `Array::Length()`, an unsigned 32-bit number. -/
def Length : Value → Nat
  | array n _ => n
  | _ => 0

/-- The test `array->Has(i)`: index `i` holds an element. -/
def Has : Value → Nat → Bool
  | array _ f, i => (f i).isSome
  | _, _ => false

/-- The read `array->Get(i)`; a hole reads as `undefined`. -/
def Get : Value → Nat → Value
  | array _ f, i => (f i).getD undefined
  | _, _ => undefined

end Value

/-- The argument list of a host call: `args[i]` is `undefined` past the end. -/
def arg (args : List Value) (i : Nat) : Value := args.getD i Value.undefined

/-- The array built by `Array::New(n)` followed by `Set(i, xs[i])` for every
`i < n`. -/
def arrayOf (xs : List Value) : Value :=
  Value.array xs.length (fun i => xs.get? i)

/-- An aborted run: the `assert` whose expression is given failed. -/
inductive Abort where
  | assertion (expr : String)
  deriving DecidableEq, Repr

/-- How a host call returns: through `ThrowTypeError(message)`, through
`ThrowError(message)`, or after queueing the op it created (`op->Run()`,
`AsyncQueue(op, ...)`), the only way an op reaches a worker. -/
inductive Call (α : Type) where
  | ThrowTypeError (message : String)
  | ThrowError (message : String)
  | Run (op : α)

/-- The op a host call queued, if any. -/
def Call.queued {α : Type} : Call α → Option α
  | Call.Run op => some op
  | _ => none

/-- One invocation of a user callback, `fn->Call(global, argc, argv)`. -/
structure Invocation where
  fn : Value
  argv : List Value

/-- The helpers declared in `helpers.h` and `options.h`, which are not part of
the sources at hand, as parameters: the options decoders, the slice a value is
viewed as (`ToSlice`), the handles `ToSlice` pins for it, and the host buffer
made from the bytes of a `std::string` (`ToBuffer`). -/
structure Helpers where
  UnpackOptions : Value → Options → Options × Option Value
  UnpackReadOptions : Value → ReadOptions → ReadOptions
  UnpackWriteOptions : Value → WriteOptions → WriteOptions
  ToSlice : Value → Bytes
  pins : Value → List Value
  ToBuffer : Bytes → Value

/-! ## Open -/

/-- The constructor callback `JHandle::New`: called with the native database
as an external and the comparator (or `undefined`), it wraps them in a new
handle object. -/
def JHandle.New (args : List Value) : Except Abort Value :=
  if args.length ≠ 2 then
    Except.error (Abort.assertion "args.Length() == 2")
  else if !(arg args 0).IsExternal then
    Except.error (Abort.assertion "args[0]->IsExternal()")
  else
    Except.ok (Value.handle (arg args 0).Unwrap
      (if (arg args 1).IsExternal then some (arg args 1) else none))

/-- The struct `open_params_t`.  An empty persistent handle is `none`. -/
structure open_params where
  name_ : String
  options_ : Options
  status_ : Status
  db_ : Nat
  comparator_ : Option Value
  callback_ : Option Value

/-- The worker phase `AsyncOpen`. -/
def AsyncOpen (E : Engine) (op : open_params) : open_params :=
  { op with status_ := (E.Open op.options_ op.name_).1, db_ := (E.Open op.options_ op.name_).2 }

/-- The completion phase `AfterOpen`: the callback invocation it makes, or the
assertion it fails. -/
def AfterOpen (op : open_params) : Except Abort Invocation :=
  match op.callback_ with
  | none => Except.error (Abort.assertion "!op->callback_.IsEmpty()")
  | some cb =>
    if op.status_.ok then
      match JHandle.New [Value.external op.db_, op.comparator_.getD Value.undefined] with
      | Except.ok result => Except.ok { fn := cb, argv := [Value.null, result] }
      | Except.error a => Except.error a
    else
      Except.ok { fn := cb, argv := [Value.error op.status_.ToString, Value.undefined] }

/-- The host call `JHandle::Open`. -/
def JHandle.Open (H : Helpers) (args : List Value) : Call open_params :=
  if args.length ≠ 3 || !(arg args 0).IsString || !(arg args 2).IsFunction then
    Call.ThrowTypeError "Invalid arguments"
  else
    Call.Run
      { name_ := (arg args 0).Utf8Value
        options_ := (H.UnpackOptions (arg args 1) {}).1
        status_ := Status.OK
        db_ := 0
        comparator_ := (H.UnpackOptions (arg args 1) {}).2
        callback_ := some (arg args 2) }

/-! ## Destroy and repair -/

/-- The struct `dbop_params_t`. -/
structure dbop_params where
  name_ : String
  options_ : Options
  status_ : Status
  callback_ : Option Value

/-- The two worker functions that `DbOp` is called with. -/
inductive uv_work_cb where
  | AsyncDestroy
  | AsyncRepair
  deriving DecidableEq, Repr

/-- The worker phase `AsyncDestroy` (it reads the op through the layout of
`open_params_t`, whose first three members are those of `dbop_params_t`). -/
def AsyncDestroy (E : Engine) (op : dbop_params) : dbop_params :=
  { op with status_ := E.DestroyDB op.name_ op.options_ }

/-- The worker phase `AsyncRepair`. -/
def AsyncRepair (E : Engine) (op : dbop_params) : dbop_params :=
  { op with status_ := E.RepairDB op.name_ op.options_ }

/-- The worker phase selected by the function pointer given to `DbOp`. -/
def uv_work_cb.run (async : uv_work_cb) (E : Engine) (op : dbop_params) : dbop_params :=
  match async with
  | uv_work_cb.AsyncDestroy => NodeLevelDB.AsyncDestroy E op
  | uv_work_cb.AsyncRepair => NodeLevelDB.AsyncRepair E op

/-- The completion phase `AfterDbOp`: the callback invocation it makes, or the
assertion it fails. -/
def AfterDbOp (op : dbop_params) : Except Abort Invocation :=
  match op.callback_ with
  | none => Except.error (Abort.assertion "!op->callback_.IsEmpty()")
  | some cb =>
    if !op.status_.ok then
      Except.ok { fn := cb, argv := [Value.error op.status_.ToString] }
    else
      Except.ok { fn := cb, argv := [Value.null] }

/-- The function `DbOp(args, async)`: the op it queues together with the
worker function it queues it for. -/
def DbOp (H : Helpers) (args : List Value) (async : uv_work_cb) : Call (dbop_params × uv_work_cb) :=
  if args.length ≠ 3 || !(arg args 0).IsString then
    Call.ThrowTypeError "Invalid arguments"
  else
    Call.Run
      ({ name_ := (arg args 0).Utf8Value
         options_ := (H.UnpackOptions (arg args 1) {}).1
         status_ := Status.OK
         callback_ := if (arg args 2).IsFunction then some (arg args 2) else none },
       async)

/-- The host call `JHandle::Destroy`. -/
def JHandle.Destroy (H : Helpers) (args : List Value) : Call (dbop_params × uv_work_cb) :=
  DbOp H args uv_work_cb.AsyncDestroy

/-- The host call `JHandle::Repair`. -/
def JHandle.Repair (H : Helpers) (args : List Value) : Call (dbop_params × uv_work_cb) :=
  DbOp H args uv_work_cb.AsyncRepair

/-! ## Get -/

/-- The payload of a `ReadOp`; `result_` is the `std::string*` the worker
allocates. -/
structure ReadOp where
  key_ : Bytes
  keyHandle_ : List Value
  options_ : ReadOptions
  status_ : Status
  result_ : Option Bytes

/-- Modelled from the spec: `ReadOp::New` is declared in `operation.h`, which
is not part of the sources; by section 3 an op is created on submission, its
payload default-constructed (a default `leveldb::Status` is ok). -/
def ReadOp.New : ReadOp :=
  { key_ := [], keyHandle_ := [], options_ := {}, status_ := Status.OK, result_ := none }

/-- The host call `JHandle::Read(const Arguments&)` (method `get`). -/
def JHandle.Read (H : Helpers) (args : List Value) : Call ReadOp :=
  if args.length < 1 || !(arg args 0).IsBuffer then
    Call.ThrowTypeError "Invalid arguments"
  else
    Call.Run
      { ReadOp.New with
        key_ := H.ToSlice (arg args 0)
        keyHandle_ := H.pins (arg args 0)
        options_ :=
          if args.length > 1 then H.UnpackReadOptions (arg args 1) ReadOp.New.options_
          else ReadOp.New.options_ }

/-- The worker phase `JHandle::Read(ReadOp*)`. -/
def JHandle.ReadWork (db : DB) (op : ReadOp) : ReadOp :=
  { op with
    result_ := some (db.Get op.options_ op.key_).2
    status_ := (db.Get op.options_ op.key_).1 }

/-- The completion phase `JHandle::Read(ReadOp*, error, result)`; it returns
the two references `(error, result)` as it leaves them. -/
def JHandle.ReadAfter (H : Helpers) (op : ReadOp) (error result : Value) : Value × Value :=
  if op.status_.ok then
    (error, H.ToBuffer (op.result_.getD []))
  else if !op.status_.IsNotFound then
    (Value.error op.status_.ToString, result)
  else
    (error, result)

/-! ## Property -/

/-- The payload of a `PropertyOp`. -/
structure PropertyOp where
  name_ : String
  hasProperty_ : Bool
  value_ : String

/-- Modelled from the spec: `PropertyOp::New` is declared in `operation.h`,
which is not part of the sources; by section 3 an op is created on submission,
its payload default-constructed. -/
def PropertyOp.New : PropertyOp :=
  { name_ := "", hasProperty_ := false, value_ := "" }

/-- The host call `JHandle::Property(const Arguments&)`. -/
def JHandle.Property (args : List Value) : Call PropertyOp :=
  if args.length < 1 || !(arg args 0).IsString then
    Call.ThrowTypeError "Invalid arguments"
  else
    Call.Run { PropertyOp.New with name_ := (arg args 0).Utf8Value }

/-- The worker phase `JHandle::Property(PropertyOp*)`. -/
def JHandle.PropertyWork (db : DB) (op : PropertyOp) : PropertyOp :=
  { op with
    hasProperty_ := (db.GetProperty op.name_).1
    value_ := (db.GetProperty op.name_).2 }

/-- The completion phase `JHandle::Property(PropertyOp*, error, result)`. -/
def JHandle.PropertyAfter (op : PropertyOp) (error result : Value) : Value × Value :=
  if op.hasProperty_ then (error, Value.string op.value_) else (error, result)

/-- The host call `JHandle::CompactRange`. -/
def JHandle.CompactRange (_args : List Value) : Call Unit :=
  Call.ThrowError "Method not implemented"

/-! ## Approximate sizes -/

/-- The payload of an `ApproximateSizesOp`; `sizes_` is the `uint64_t` array
the worker allocates. -/
structure ApproximateSizesOp where
  handles_ : List Value
  ranges_ : List Range
  sizes_ : List Nat

/-- Modelled from the spec: `ApproximateSizesOp::New` is declared in
`operation.h`, which is not part of the sources; by section 3 an op is created
on submission, its payload default-constructed. -/
def ApproximateSizesOp.New : ApproximateSizesOp :=
  { handles_ := [], ranges_ := [], sizes_ := [] }

/-- The loop `for (int i = 0; i < len; i += 2)` of `JHandle::ApproximateSizes`:
its iterations are `i = 2 * j` for `j` below `len / 2` rounded up, and an
iteration yields the pair `(array->Get(i), array->Get(i + 1))` when both
indices are present. -/
def JHandle.ApproximateSizes.pairs (array : Value) (len : Int) : List (Value × Value) :=
  (List.range ((len.toNat + 1) / 2)).filterMap fun j =>
    if array.Has (2 * j) && array.Has (2 * j + 1) then
      some (array.Get (2 * j), array.Get (2 * j + 1))
    else none

/-- The host call `JHandle::ApproximateSizes(const Arguments&)`.  The length
of the array, an unsigned 32-bit number, is read into an `int`. -/
def JHandle.ApproximateSizes (H : Helpers) (args : List Value) : Call ApproximateSizesOp :=
  if args.length < 1 || !(arg args 0).IsArray then
    Call.ThrowTypeError "Invalid arguments"
  else if (toInt (arg args 0).Length).tmod 2 ≠ 0 then
    Call.ThrowTypeError "Invalid arguments"
  else
    Call.Run
      { ApproximateSizesOp.New with
        handles_ :=
          ((JHandle.ApproximateSizes.pairs (arg args 0) (toInt (arg args 0).Length)).map
            fun p => H.pins p.1 ++ H.pins p.2).flatten
        ranges_ :=
          (JHandle.ApproximateSizes.pairs (arg args 0) (toInt (arg args 0).Length)).map
            fun p => { start := H.ToSlice p.1, limit := H.ToSlice p.2 } }

/-- The worker phase `JHandle::ApproximateSizes(ApproximateSizesOp*)`. -/
def JHandle.ApproximateSizesWork (db : DB) (op : ApproximateSizesOp) : ApproximateSizesOp :=
  { op with sizes_ := db.GetApproximateSizes op.ranges_ (toInt op.ranges_.length) }

/-- The value stored for one size by the completion phase: an `Integer` made
from the `uint32_t` cast when `size < INT_MAX`, a `Number` made from the
`double` cast otherwise.  `Integer::New` takes an `int32_t`. -/
def JHandle.ApproximateSizesAfter.entry (size : Nat) : Value :=
  if size < INT_MAX then Value.integer (toInt (toUInt32 size)) else Value.number size

/-- The completion phase
`JHandle::ApproximateSizes(ApproximateSizesOp*, error, result)`. -/
def JHandle.ApproximateSizesAfter (op : ApproximateSizesOp) (error _result : Value) : Value × Value :=
  (error,
   arrayOf ((List.range (toInt op.ranges_.length).toNat).map
     fun i => JHandle.ApproximateSizesAfter.entry (op.sizes_.getD i 0)))

/-! ## Write batches -/

/-- Modelled from the spec: the class `JBatch` is declared in `batch.h`, which
is not part of the sources.  By section 3 a batch has a native batch object, a
reader count and a writer flag. -/
structure JBatch where
  wb_ : List BatchOp
  readers : Nat
  writer : Bool
  deriving DecidableEq, Repr

/-- The failure of a batch mutation, `BatchInUse` (section 7). -/
inductive BatchError where
  | BatchInUse
  deriving DecidableEq, Repr

/-- Modelled from the spec: `JBatch::ReadLock` is declared in `batch.h`; by
section 4.4 it acquires the batch in read mode. -/
def JBatch.ReadLock (b : JBatch) : JBatch := { b with readers := b.readers + 1 }

/-- Modelled from the spec: `JBatch::ReadUnlock` is declared in `batch.h`; it
gives back the read mode taken by `ReadLock`. -/
def JBatch.ReadUnlock (b : JBatch) : JBatch := { b with readers := b.readers - 1 }

/-- Modelled from the spec: a mutation of a batch, by section 4.4, requires
write mode and fails with `BatchInUse` if any writer or reader is active;
otherwise it applies `f` to the native batch. -/
def JBatch.mutate (b : JBatch) (f : List BatchOp → List BatchOp) : Except BatchError JBatch :=
  if b.writer || decide (b.readers > 0) then Except.error BatchError.BatchInUse
  else Except.ok { b with wb_ := f b.wb_ }

/-- Modelled from the spec: the batch method `put(key, value)` of section 4.4. -/
def JBatch.Put (b : JBatch) (key value : Bytes) : Except BatchError JBatch :=
  b.mutate fun wb => wb ++ [BatchOp.put key value]

/-- Modelled from the spec: the batch method `delete(key)` of section 4.4. -/
def JBatch.Del (b : JBatch) (key : Bytes) : Except BatchError JBatch :=
  b.mutate fun wb => wb ++ [BatchOp.del key]

/-- Modelled from the spec: the batch method `clear()` of section 4.4. -/
def JBatch.Clear (b : JBatch) : Except BatchError JBatch :=
  b.mutate fun _ => []

/-- The batch objects of the host, by address. -/
abbrev Batches := Nat → JBatch

/-- The batches after the one at `ptr` has become `b`. -/
def Batches.set (bs : Batches) (ptr : Nat) (b : JBatch) : Batches :=
  fun q => if q = ptr then b else bs q

/-! ## Write -/

/-- The payload of a `WriteOp`; `batch_` is the address of the `JBatch`. -/
structure WriteOp where
  batch_ : Nat
  options_ : WriteOptions
  status_ : Status
  deriving DecidableEq, Repr

/-- Modelled from the spec: `WriteOp::New` is declared in `operation.h`, which
is not part of the sources; by section 3 an op is created on submission, its
payload default-constructed (a default `leveldb::Status` is ok). -/
def WriteOp.New : WriteOp :=
  { batch_ := 0, options_ := {}, status_ := Status.OK }

/-- The host call `JHandle::Write(const Arguments&)`. -/
def JHandle.Write (H : Helpers) (args : List Value) : Call WriteOp :=
  if args.length < 1 || !(arg args 0).IsBatch then
    Call.ThrowTypeError "Invalid arguments"
  else
    Call.Run
      { WriteOp.New with
        batch_ := (arg args 0).UnwrapBatch
        options_ :=
          if args.length > 1 then H.UnpackWriteOptions (arg args 1) WriteOp.New.options_
          else WriteOp.New.options_ }

/-- First statement of the worker phase: `op->batch_->ReadLock()`. -/
def JHandle.WriteWork.lock (op : WriteOp) (bs : Batches) : Batches :=
  bs.set op.batch_ (bs op.batch_).ReadLock

/-- Second statement of the worker phase: the engine write,
`op->status_ = db_->Write(op->options_, &op->batch_->wb_)`. -/
def JHandle.WriteWork.write (db : DB) (op : WriteOp) (bs : Batches) : WriteOp :=
  { op with status_ := db.Write op.options_ (bs op.batch_).wb_ }

/-- Third statement of the worker phase: `op->batch_->ReadUnlock()`. -/
def JHandle.WriteWork.unlock (op : WriteOp) (bs : Batches) : Batches :=
  bs.set op.batch_ (bs op.batch_).ReadUnlock

/-- The worker phase `JHandle::Write(WriteOp*)`, run without interruption. -/
def JHandle.WriteWork (db : DB) (op : WriteOp) (bs : Batches) : WriteOp × Batches :=
  (JHandle.WriteWork.write db op (JHandle.WriteWork.lock op bs),
   JHandle.WriteWork.unlock op (JHandle.WriteWork.lock op bs))

/-- The completion phase `JHandle::Write(WriteOp*, error, result)`. -/
def JHandle.WriteAfter (op : WriteOp) (error result : Value) : Value × Value :=
  if !op.status_.ok then (Value.error op.status_.ToString, result) else (error, result)

/-- Where a submitted write op stands: queued and not yet picked up by a
worker; in the worker phase after `ReadLock` (`locked`), after the engine
write (`written`), after `ReadUnlock` (`worked`, the worker phase is over);
and after its completion phase. -/
inductive Phase where
  | queued
  | locked
  | written
  | worked
  | completed
  deriving DecidableEq, Repr

/-- The batches of the host and the write ops submitted so far. -/
structure Writes where
  batches : Batches
  ops : List (WriteOp × Phase)

/-- What can happen next: the host thread calls `write`, or mutates a batch;
a worker thread runs the next statement of the worker phase of op `i`; the
host thread runs the completion phase of op `i`. -/
inductive WriteEvent where
  | write (args : List Value)
  | put (batch : Nat) (key value : Bytes)
  | del (batch : Nat) (key : Bytes)
  | clear (batch : Nat)
  | worker (i : Nat)
  | after (i : Nat)

/-- The batches after a mutation attempt on the batch at `ptr`: a failed
attempt throws and changes nothing. -/
def Writes.attempt (w : Writes) (ptr : Nat) (r : Except BatchError JBatch) : Writes :=
  match r with
  | Except.ok b => { w with batches := w.batches.set ptr b }
  | Except.error _ => w

/-- One event of the interleaving of host thread and workers. -/
def Writes.step (H : Helpers) (db : DB) (w : Writes) : WriteEvent → Writes
  | WriteEvent.write args =>
    match JHandle.Write H args with
    | Call.Run op => { w with ops := w.ops ++ [(op, Phase.queued)] }
    | _ => w
  | WriteEvent.put ptr key value => w.attempt ptr ((w.batches ptr).Put key value)
  | WriteEvent.del ptr key => w.attempt ptr ((w.batches ptr).Del key)
  | WriteEvent.clear ptr => w.attempt ptr (w.batches ptr).Clear
  | WriteEvent.worker i =>
    match w.ops.get? i with
    | some (op, Phase.queued) =>
      { batches := JHandle.WriteWork.lock op w.batches
        ops := w.ops.set i (op, Phase.locked) }
    | some (op, Phase.locked) =>
      { w with ops := w.ops.set i (JHandle.WriteWork.write db op w.batches, Phase.written) }
    | some (op, Phase.written) =>
      { batches := JHandle.WriteWork.unlock op w.batches
        ops := w.ops.set i (op, Phase.worked) }
    | _ => w
  | WriteEvent.after i =>
    match w.ops.get? i with
    | some (op, Phase.worked) => { w with ops := w.ops.set i (op, Phase.completed) }
    | _ => w

/-- A run of events, oldest first. -/
def Writes.run (H : Helpers) (db : DB) (w : Writes) (events : List WriteEvent) : Writes :=
  events.foldl (Writes.step H db) w

/-- The host before any write: every batch is empty and unlocked, and no op
has been submitted. -/
def Writes.start : Writes :=
  { batches := fun _ => { wb_ := [], readers := 0, writer := false }, ops := [] }

/-- The number of submitted ops on the batch at `ptr` that are between their
`ReadLock` and their `ReadUnlock`. -/
def Writes.holders (w : Writes) (ptr : Nat) : Nat :=
  (w.ops.filter fun o =>
    decide (o.1.batch_ = ptr) && (decide (o.2 = Phase.locked) || decide (o.2 = Phase.written))).length

/-! ## Iterators and snapshots: the children of a handle -/

/-- The state that `node::ObjectWrap` keeps for a wrapped object: the count
`refs_` and whether the handle to the host object is weak (collectable). -/
structure ObjectWrap where
  refs_ : Nat
  weak : Bool
  deriving DecidableEq, Repr

/-- The method `ObjectWrap::Ref()`: `refs_++; handle_.ClearWeak()`.  Its
assertion that the handle is not empty holds for every wrapped object. -/
def ObjectWrap.Ref (o : ObjectWrap) : ObjectWrap :=
  { refs_ := o.refs_ + 1, weak := false }

/-- The method `ObjectWrap::Unref()`: it asserts that the handle is not weak
and that `refs_ > 0`, then `if (--refs_ == 0) MakeWeak()`. -/
def ObjectWrap.Unref (o : ObjectWrap) : Except Abort ObjectWrap :=
  if o.weak then Except.error (Abort.assertion "!handle_.IsWeak()")
  else if o.refs_ = 0 then Except.error (Abort.assertion "refs_ > 0")
  else Except.ok { refs_ := o.refs_ - 1, weak := decide (o.refs_ - 1 = 0) }

/-- The two weak callbacks the handle registers. -/
inductive WeakCallback where
  | UnrefIterator
  | UnrefSnapshot
  deriving DecidableEq, Repr

/-- A weak persistent handle made by `weak.MakeWeak(this, callback)`: the
object it refers to and the callback the collector will invoke for it. -/
structure WeakHandle where
  object : Value
  callback : WeakCallback

/-- What a child operation does to the count and to the engine, in order. -/
inductive Effect where
  | Ref
  | Unref
  | ReleaseSnapshot (snapshot : Nat)
  deriving DecidableEq, Repr

/-- A database handle as far as its children are concerned: the `ObjectWrap`
base (the live-child count `refs_`), the weak persistent handles registered
with this handle as parameter (the children created and not yet collected), and
the effects so far, oldest first. -/
structure JHandle where
  wrap : ObjectWrap
  children : List WeakHandle
  log : List Effect

/-- A handle right after `JHandle::New`: `Wrap` leaves `refs_ = 0` and the
handle weak; it has no child. -/
def JHandle.fresh : JHandle :=
  { wrap := { refs_ := 0, weak := true }, children := [], log := [] }

/-- The method `JHandle::RefIterator(it)`: the new state and the instance
returned. -/
def JHandle.RefIterator (self : JHandle) (it : Nat) : JHandle × Value :=
  ({ wrap := self.wrap.Ref
     children := self.children ++ [{ object := Value.iterator it, callback := WeakCallback.UnrefIterator }]
     log := self.log ++ [Effect.Ref] },
   Value.iterator it)

/-- The weak callback `JHandle::UnrefIterator(object, parameter)`, invoked for
the weak handle at position `k`, which `object.Dispose()` removes. -/
def JHandle.UnrefIterator (self : JHandle) (k : Nat) (object : Value) : Except Abort JHandle :=
  if !object.IsObject then Except.error (Abort.assertion "object->IsObject()")
  else
    match self.wrap.Unref with
    | Except.error a => Except.error a
    | Except.ok wrap =>
      Except.ok
        { wrap := wrap
          children := self.children.eraseIdx k
          log := self.log ++ [Effect.Unref] }

/-- The method `JHandle::RefSnapshot(snapshot)`: the new state and the
instance returned. -/
def JHandle.RefSnapshot (self : JHandle) (snapshot : Nat) : JHandle × Value :=
  ({ wrap := self.wrap.Ref
     children := self.children ++ [{ object := Value.external snapshot, callback := WeakCallback.UnrefSnapshot }]
     log := self.log ++ [Effect.Ref] },
   Value.external snapshot)

/-- The weak callback `JHandle::UnrefSnapshot(object, parameter)`, invoked for
the weak handle at position `k`, which `object.Dispose()` removes. -/
def JHandle.UnrefSnapshot (self : JHandle) (k : Nat) (object : Value) : Except Abort JHandle :=
  if !object.IsExternal then Except.error (Abort.assertion "object->IsExternal()")
  else if object.Unwrap = 0 then Except.error (Abort.assertion "snapshot")
  else
    match self.wrap.Unref with
    | Except.error a => Except.error a
    | Except.ok wrap =>
      Except.ok
        { wrap := wrap
          children := self.children.eraseIdx k
          log := self.log ++ [Effect.ReleaseSnapshot object.Unwrap, Effect.Unref] }

/-- What happens to the children of a handle: an iterator or a snapshot is
created, or the collector finalises the weak handle at position `k`. -/
inductive ChildEvent where
  | RefIterator (it : Nat)
  | RefSnapshot (snapshot : Nat)
  | collect (k : Nat)
  deriving DecidableEq, Repr

/-- The collector finalising the weak handle at position `k`: it invokes the
callback registered for it; there is nothing to do when no such handle
exists. -/
def JHandle.collect (self : JHandle) (k : Nat) : Except Abort JHandle :=
  match self.children.get? k with
  | none => Except.ok self
  | some w =>
    match w.callback with
    | WeakCallback.UnrefIterator => self.UnrefIterator k w.object
    | WeakCallback.UnrefSnapshot => self.UnrefSnapshot k w.object

/-- One child event. -/
def JHandle.step (self : JHandle) : ChildEvent → Except Abort JHandle
  | ChildEvent.RefIterator it => Except.ok (self.RefIterator it).1
  | ChildEvent.RefSnapshot snapshot => Except.ok (self.RefSnapshot snapshot).1
  | ChildEvent.collect k => self.collect k

/-- A run of child events, oldest first; it stops at the first failed
assertion. -/
def JHandle.run (self : JHandle) : List ChildEvent → Except Abort JHandle
  | [] => Except.ok self
  | e :: es =>
    match self.step e with
    | Except.ok next => next.run es
    | Except.error a => Except.error a

/-- The payload of an `IteratorOp`. -/
structure IteratorOp where
  options_ : ReadOptions
  it_ : Nat
  status_ : Status
  deriving DecidableEq, Repr

/-- Modelled from the spec: `IteratorOp::New` is declared in `operation.h`,
which is not part of the sources; by section 3 an op is created on submission,
its payload default-constructed (a default `leveldb::Status` is ok). -/
def IteratorOp.New : IteratorOp :=
  { options_ := {}, it_ := 0, status_ := Status.OK }

/-- The host call `JHandle::Iterator(const Arguments&)`. -/
def JHandle.Iterator (H : Helpers) (args : List Value) : Call IteratorOp :=
  Call.Run
    { IteratorOp.New with
      options_ :=
        if args.length > 0 then H.UnpackReadOptions (arg args 0) IteratorOp.New.options_
        else IteratorOp.New.options_ }

/-- The worker phase `JHandle::Iterator(IteratorOp*)`. -/
def JHandle.IteratorWork (db : DB) (op : IteratorOp) : IteratorOp :=
  { op with it_ := db.NewIterator op.options_ }

/-- The completion phase `JHandle::Iterator(IteratorOp*, error, result)`, on
the handle `self` of the op: the handle afterwards and the two references. -/
def JHandle.IteratorAfter (self : JHandle) (op : IteratorOp) (error result : Value) :
    JHandle × Value × Value :=
  if op.status_.ok then
    ((self.RefIterator op.it_).1, error, (self.RefIterator op.it_).2)
  else
    (self, Value.error op.status_.ToString, result)

/-- The payload of a `SnapshotOp`. -/
structure SnapshotOp where
  snap_ : Nat
  status_ : Status
  deriving DecidableEq, Repr

/-- Modelled from the spec: `SnapshotOp::New` is declared in `operation.h`,
which is not part of the sources; by section 3 an op is created on submission,
its payload default-constructed (a default `leveldb::Status` is ok). -/
def SnapshotOp.New : SnapshotOp :=
  { snap_ := 0, status_ := Status.OK }

/-- The host call `JHandle::Snapshot(const Arguments&)`. -/
def JHandle.Snapshot (_args : List Value) : Call SnapshotOp :=
  Call.Run SnapshotOp.New

/-- The worker phase `JHandle::Snapshot(SnapshotOp*)`. -/
def JHandle.SnapshotWork (db : DB) (op : SnapshotOp) : SnapshotOp :=
  { op with snap_ := db.GetSnapshot }

/-- The completion phase `JHandle::Snapshot(SnapshotOp*, error, result)`, on
the handle `self` of the op: the handle afterwards and the two references. -/
def JHandle.SnapshotAfter (self : JHandle) (op : SnapshotOp) (error result : Value) :
    JHandle × Value × Value :=
  if op.status_.ok then
    ((self.RefSnapshot op.snap_).1, error, (self.RefSnapshot op.snap_).2)
  else
    (self, Value.error op.status_.ToString, result)

/-! ## Sample inputs -/

/-- A sample of the helpers: a buffer is viewed as its bytes and pinned, any
other value is viewed as the empty slice; options are left at their
defaults; result bytes are copied into a buffer. -/
def sampleHelpers : Helpers where
  UnpackOptions := fun _ o => (o, none)
  UnpackReadOptions := fun _ o => o
  UnpackWriteOptions := fun _ o => o
  ToSlice := fun v =>
    match v with
    | Value.buffer bytes => bytes
    | _ => []
  pins := fun v =>
    match v with
    | Value.buffer bytes => [Value.buffer bytes]
    | _ => []
  ToBuffer := fun bytes => Value.buffer bytes

/-- A sample engine: only the database at `/tmp/t` exists. -/
def sampleEngine : Engine where
  Open := fun _ name =>
    if name = "/tmp/t" then (Status.OK, 7)
    else ({ code := Code.kInvalidArgument, msg := "does not exist" }, 0)
  DestroyDB := fun name _ =>
    if name = "/tmp/t" then Status.OK else { code := Code.kIOError, msg := "no such directory" }
  RepairDB := fun name _ =>
    if name = "/tmp/t" then Status.OK else { code := Code.kCorruption, msg := "no manifest" }

/-- A sample database: key `[1]` holds the bytes `[104, 105]`, key `[2]` is
absent, reading any other key fails; a batch of more than two records is
refused. -/
def sampleDB : DB where
  Get := fun _ key =>
    if key = [1] then (Status.OK, [104, 105])
    else if key = [2] then ({ code := Code.kNotFound, msg := "" }, [])
    else ({ code := Code.kIOError, msg := "disk" }, [])
  Write := fun _ wb =>
    if wb.length ≤ 2 then Status.OK else { code := Code.kNotFound, msg := "table" }
  NewIterator := fun _ => 11
  GetSnapshot := 12
  GetProperty := fun name => if name = "leveldb.stats" then (true, "stats") else (false, "")
  GetApproximateSize := fun r => 1000 * r.start.length + r.limit.length

/-- Sample arguments of `open`, `destroy` and `repair`: an existing path, no
options, a callback. -/
def sampleArgs : List Value := [Value.string "/tmp/t", Value.undefined, Value.function 1]

/-- Sample arguments naming a path the sample engine does not know. -/
def sampleArgsMissing : List Value := [Value.string "/tmp/x", Value.undefined, Value.function 1]

/-- The op that `open` creates from `sampleArgs`. -/
def sampleOpenOp : open_params :=
  { name_ := "/tmp/t", options_ := {}, status_ := Status.OK, db_ := 0, comparator_ := none,
    callback_ := some (Value.function 1) }

/-- The op that `destroy` and `repair` create from `sampleArgsMissing`. -/
def sampleDbOp : dbop_params :=
  { name_ := "/tmp/x", options_ := {}, status_ := Status.OK, callback_ := some (Value.function 1) }

/-- A sample database that reports `INT_MAX` bytes for every range. -/
def sampleFullDB : DB :=
  { sampleDB with GetApproximateSize := fun _ => 2147483647 }

/-- Sample arguments of `approximateSizes`: one range, from `[1]` to `[2, 3]`. -/
def sampleRangeArgs : List Value :=
  [Value.array 2 (fun i => if i = 0 then some (Value.buffer [1]) else some (Value.buffer [2, 3])),
   Value.function 1]

/-- A sample array of length `2 ^ 31` in which every index holds a buffer. -/
def sampleHugeArray : Value := Value.array 2147483648 (fun _ => some (Value.buffer [1]))

/-- The op that `approximateSizes` creates from `sampleRangeArgs`. -/
def sampleRangeOp : ApproximateSizesOp :=
  { handles_ := [Value.buffer [1], Value.buffer [2, 3]],
    ranges_ := [{ start := [1], limit := [2, 3] }], sizes_ := [] }

/-- The state of a handle is consistent when its count `refs_` is the number
of registered children, its own host handle is weak exactly at count zero, and
every registered child carries the object its callback expects: an object for
`UnrefIterator`, the external of a non-null snapshot for `UnrefSnapshot`. -/
def JHandle.Consistent (self : JHandle) : Prop :=
  self.wrap.refs_ = self.children.length ∧
  (self.wrap.weak = true ↔ self.wrap.refs_ = 0) ∧
  ∀ w, w ∈ self.children →
    (w.callback = WeakCallback.UnrefIterator → w.object.IsObject = true) ∧
    (w.callback = WeakCallback.UnrefSnapshot →
      w.object.IsExternal = true ∧ w.object.Unwrap ≠ 0)

/-- A sample run of child events: an iterator and a snapshot are created, the
snapshot is collected. -/
def sampleChildEvents : List ChildEvent :=
  [ChildEvent.RefIterator 11, ChildEvent.RefSnapshot 12, ChildEvent.collect 1]

/-- The batches and the submitted ops agree when the reader count of every
batch is the number of ops holding it, and no writer flag is left set. -/
def Writes.Consistent (w : Writes) : Prop :=
  ∀ ptr, (w.batches ptr).readers = w.holders ptr ∧ (w.batches ptr).writer = false

/-- Sample arguments of `write`: the batch at address 5 and a callback. -/
def sampleWriteArgs : List Value := [Value.batch 5, Value.function 1]

/-- The op that `write` creates from `sampleWriteArgs`. -/
def sampleWriteOp : WriteOp := { batch_ := 5, options_ := {}, status_ := Status.OK }

/-! ## Theorems -/

/-! ### Status and argument helpers -/

theorem Status.ok_false_of_IsNotFound {s : Status} (h : s.IsNotFound = true) : s.ok = false := by
  cases s with
  | mk code msg => cases code <;> simp_all [Status.ok, Status.IsNotFound]

/-! ### get: the completion phase -/

/-- C1: for the status `s` that the engine's `Get` returns in the worker phase
of `get`, the completion phase started with `error = null` and
`result = undefined` leaves: for `s` ok, a null error and the buffer made by
`ToBuffer` from the bytes the engine returned; for `s` NotFound, a null error
and an undefined result; for any other `s`, an error carrying `s.ToString()`
and an undefined result. -/
theorem get_completion (H : Helpers) (db : DB) (op : ReadOp) :
    (JHandle.ReadWork db op).status_ = (db.Get op.options_ op.key_).1 ∧
    ((db.Get op.options_ op.key_).1.ok = true →
      JHandle.ReadAfter H (JHandle.ReadWork db op) Value.null Value.undefined
        = (Value.null, H.ToBuffer (db.Get op.options_ op.key_).2)) ∧
    ((db.Get op.options_ op.key_).1.IsNotFound = true →
      JHandle.ReadAfter H (JHandle.ReadWork db op) Value.null Value.undefined
        = (Value.null, Value.undefined)) ∧
    ((db.Get op.options_ op.key_).1.ok = false →
      (db.Get op.options_ op.key_).1.IsNotFound = false →
      JHandle.ReadAfter H (JHandle.ReadWork db op) Value.null Value.undefined
        = (Value.error (db.Get op.options_ op.key_).1.ToString, Value.undefined)) := by
  refine ⟨rfl, ?_, ?_, ?_⟩
  · intro h
    simp [JHandle.ReadAfter, JHandle.ReadWork, h]
  · intro h
    have h0 := Status.ok_false_of_IsNotFound h
    simp [JHandle.ReadAfter, JHandle.ReadWork, h, h0]
  · intro h0 h1
    simp [JHandle.ReadAfter, JHandle.ReadWork, h0, h1]

/-- Witness of C1 on the sample database: a present key, an absent key and a
failing read. -/
theorem get_completion_witness :
    JHandle.ReadAfter sampleHelpers (JHandle.ReadWork sampleDB { ReadOp.New with key_ := [1] })
        Value.null Value.undefined = (Value.null, Value.buffer [104, 105]) ∧
    JHandle.ReadAfter sampleHelpers (JHandle.ReadWork sampleDB { ReadOp.New with key_ := [2] })
        Value.null Value.undefined = (Value.null, Value.undefined) ∧
    JHandle.ReadAfter sampleHelpers (JHandle.ReadWork sampleDB { ReadOp.New with key_ := [3] })
        Value.null Value.undefined = (Value.error "IO error: disk", Value.undefined) :=
  ⟨(get_completion sampleHelpers sampleDB { ReadOp.New with key_ := [1] }).2.1 (by decide),
   (get_completion sampleHelpers sampleDB { ReadOp.New with key_ := [2] }).2.2.1 (by decide),
   (get_completion sampleHelpers sampleDB { ReadOp.New with key_ := [3] }).2.2.2 (by decide) (by decide)⟩

/-! ### approximateSizes: odd lengths -/

theorem toInt_tmod_two_of_odd (n : Nat) (h : n % 2 = 1) : (toInt n).tmod 2 ≠ 0 := by
  have h32 : (n % 2 ^ 32) % 2 = 1 := by omega
  unfold toInt
  split
  · intro h0
    have := Int.tmod_eq_emod (a := ((n % 2 ^ 32 : Nat) : Int)) (b := 2) (by omega) (by omega)
    omega
  · intro h0
    have hd := Int.dvd_of_tmod_eq_zero h0
    omega

/-- C3: a call of `approximateSizes` whose first argument is an array of odd
length returns through `ThrowTypeError` and queues no op, so that no range
reaches the engine. -/
theorem approximateSizes_odd_length (H : Helpers) (n : Nat) (elems : Nat → Option Value)
    (rest : List Value) (hodd : n % 2 = 1) :
    JHandle.ApproximateSizes H (Value.array n elems :: rest)
      = Call.ThrowTypeError "Invalid arguments" ∧
    (JHandle.ApproximateSizes H (Value.array n elems :: rest)).queued = none := by
  have h := toInt_tmod_two_of_odd n hodd
  have e : JHandle.ApproximateSizes H (Value.array n elems :: rest)
      = Call.ThrowTypeError "Invalid arguments" := by
    simp [JHandle.ApproximateSizes, arg, Value.IsArray, Value.Length, h]
  rw [e]
  exact ⟨rfl, rfl⟩

/-- Witness of C3: an array of three buffers, and a sparse array whose length
`2 ^ 31 + 1` does not fit an `int`. -/
theorem approximateSizes_odd_length_witness :
    JHandle.ApproximateSizes sampleHelpers
        [Value.array 3 (fun _ => some (Value.buffer [1])), Value.function 0]
      = Call.ThrowTypeError "Invalid arguments" ∧
    JHandle.ApproximateSizes sampleHelpers
        [Value.array 2147483649 (fun _ => none), Value.function 0]
      = Call.ThrowTypeError "Invalid arguments" :=
  ⟨(approximateSizes_odd_length sampleHelpers 3 _ _ (by decide)).1,
   (approximateSizes_odd_length sampleHelpers 2147483649 _ _ (by decide)).1⟩

/-! ### destroy and repair without a callback -/

/-- C4: evaluation of the code where the claim fails.  `destroy` or `repair`
called with a path and a third argument that is not a function queues an op
whose callback is empty, and the completion phase `AfterDbOp` of that op fails
its first assertion, whatever the engine answered, instead of running to its
end. -/
theorem dbop_without_callback (H : Helpers) (E : Engine) (path : String) (options cb : Value)
    (async : uv_work_cb) (hcb : cb.IsFunction = false) :
    ∃ op, DbOp H [Value.string path, options, cb] async = Call.Run (op, async) ∧
      op.callback_ = none ∧
      AfterDbOp (async.run E op) = Except.error (Abort.assertion "!op->callback_.IsEmpty()") := by
  refine ⟨{ name_ := path, options_ := (H.UnpackOptions options {}).1, status_ := Status.OK,
             callback_ := none }, ?_, rfl, ?_⟩
  · simp [DbOp, arg, Value.IsString, Value.Utf8Value, hcb]
  · cases async <;> rfl

/-- Witness of C4: `destroy("/tmp/t", undefined, undefined)` on the sample
engine. -/
theorem dbop_without_callback_witness :
    ∃ op, JHandle.Destroy sampleHelpers [Value.string "/tmp/t", Value.undefined, Value.undefined]
        = Call.Run (op, uv_work_cb.AsyncDestroy) ∧
      op.callback_ = none ∧
      AfterDbOp (AsyncDestroy sampleEngine op)
        = Except.error (Abort.assertion "!op->callback_.IsEmpty()") :=
  dbop_without_callback sampleHelpers sampleEngine "/tmp/t" Value.undefined Value.undefined
    uv_work_cb.AsyncDestroy rfl

/-! ### open, destroy, repair and write: status to callback arguments -/

theorem Value.error_ne_null (m : String) : Value.error m ≠ Value.null := nofun

theorem AfterOpen_of_ok (op : open_params) (cb : Value) (hcb : op.callback_ = some cb)
    (hok : op.status_.ok = true) :
    ∃ cmp, AfterOpen op
      = Except.ok { fn := cb, argv := [Value.null, Value.handle op.db_ cmp] } := by
  refine ⟨if (op.comparator_.getD Value.undefined).IsExternal
      then some (op.comparator_.getD Value.undefined) else none, ?_⟩
  simp [AfterOpen, hcb, hok, JHandle.New, arg, Value.IsExternal, Value.Unwrap]

theorem AfterOpen_of_not_ok (op : open_params) (cb : Value) (hcb : op.callback_ = some cb)
    (hok : op.status_.ok = false) :
    AfterOpen op
      = Except.ok { fn := cb, argv := [Value.error op.status_.ToString, Value.undefined] } := by
  simp [AfterOpen, hcb, hok]

theorem Open_run (H : Helpers) (args : List Value) (op : open_params)
    (h : JHandle.Open H args = Call.Run op) : op.callback_ = some (arg args 2) := by
  unfold JHandle.Open at h
  split at h
  · cases h
  · cases h
    rfl

theorem DbOp_run (H : Helpers) (args : List Value) (async : uv_work_cb) (op : dbop_params)
    (h : DbOp H args async = Call.Run (op, async)) (hfn : (arg args 2).IsFunction = true) :
    op.callback_ = some (arg args 2) := by
  unfold DbOp at h
  split at h
  · cases h
  · cases h
    simp [hfn]

/-- C5: for `open`, `destroy`, `repair` and `write` and every engine status
`s`, the error argument handed to the callback is null exactly when `s` is ok
and is otherwise an error whose message is `s.ToString()` (also when `s` is
NotFound); for `open` the result argument is a new handle wrapping the opened
native database when `s` is ok and `undefined` otherwise. -/
theorem status_to_callback (H : Helpers) (E : Engine) (db : DB) (args : List Value) :
    (∀ op, JHandle.Open H args = Call.Run op →
      (AsyncOpen E op).status_ = (E.Open op.options_ op.name_).1 ∧
      ∃ error result,
        AfterOpen (AsyncOpen E op) = Except.ok { fn := arg args 2, argv := [error, result] } ∧
        (error = Value.null ↔ (E.Open op.options_ op.name_).1.ok = true) ∧
        ((E.Open op.options_ op.name_).1.ok = false →
          error = Value.error (E.Open op.options_ op.name_).1.ToString ∧
          result = Value.undefined) ∧
        ((E.Open op.options_ op.name_).1.ok = true →
          ∃ cmp, result = Value.handle (E.Open op.options_ op.name_).2 cmp)) ∧
    (∀ async op, DbOp H args async = Call.Run (op, async) → (arg args 2).IsFunction = true →
      (AsyncDestroy E op).status_ = E.DestroyDB op.name_ op.options_ ∧
      (AsyncRepair E op).status_ = E.RepairDB op.name_ op.options_ ∧
      ∃ error,
        AfterDbOp (async.run E op) = Except.ok { fn := arg args 2, argv := [error] } ∧
        (error = Value.null ↔ (async.run E op).status_.ok = true) ∧
        ((async.run E op).status_.ok = false →
          error = Value.error (async.run E op).status_.ToString)) ∧
    (∀ (op : WriteOp) (bs : Batches),
      (JHandle.WriteWork db op bs).1.status_ = db.Write op.options_ (bs op.batch_).wb_ ∧
      ∃ error,
        JHandle.WriteAfter (JHandle.WriteWork db op bs).1 Value.null Value.undefined
          = (error, Value.undefined) ∧
        (error = Value.null ↔ (db.Write op.options_ (bs op.batch_).wb_).ok = true) ∧
        ((db.Write op.options_ (bs op.batch_).wb_).ok = false →
          error = Value.error (db.Write op.options_ (bs op.batch_).wb_).ToString)) := by
  refine ⟨?_, ?_, ?_⟩
  · intro op hrun
    have hcb : (AsyncOpen E op).callback_ = some (arg args 2) := Open_run H args op hrun
    refine ⟨rfl, ?_⟩
    cases hok : (E.Open op.options_ op.name_).1.ok
    · refine ⟨_, _, AfterOpen_of_not_ok _ _ hcb hok, ?_, ?_, ?_⟩
      · simp
      · intro _
        exact ⟨rfl, rfl⟩
      · intro h
        cases h
    · obtain ⟨cmp, hc⟩ := AfterOpen_of_ok _ _ hcb hok
      refine ⟨_, _, hc, ?_, ?_, ?_⟩
      · simp
      · intro h
        cases h
      · intro _
        exact ⟨cmp, rfl⟩
  · intro async op hrun hfn
    have hcb : (async.run E op).callback_ = some (arg args 2) := by
      have := DbOp_run H args async op hrun hfn
      cases async <;> simpa [uv_work_cb.run, AsyncDestroy, AsyncRepair] using this
    refine ⟨rfl, rfl, ?_⟩
    cases hok : (async.run E op).status_.ok
    · refine ⟨Value.error (async.run E op).status_.ToString, ?_, ?_, ?_⟩
      · simp [AfterDbOp, hcb, hok]
      · simp
      · intro _
        rfl
    · refine ⟨Value.null, ?_, ?_, ?_⟩
      · simp [AfterDbOp, hcb, hok]
      · simp
      · intro h
        cases h
  · intro op bs
    have hs : (JHandle.WriteWork db op bs).1.status_
        = db.Write op.options_ (bs op.batch_).wb_ := by
      simp [JHandle.WriteWork, JHandle.WriteWork.write, JHandle.WriteWork.lock, Batches.set,
        JBatch.ReadLock]
    refine ⟨hs, ?_⟩
    cases hok : (db.Write op.options_ (bs op.batch_).wb_).ok
    · refine ⟨Value.error (db.Write op.options_ (bs op.batch_).wb_).ToString, ?_, ?_, ?_⟩
      · simp [JHandle.WriteAfter, hs, hok]
      · simp
      · intro _
        rfl
    · refine ⟨Value.null, ?_, ?_, ?_⟩
      · simp [JHandle.WriteAfter, hs, hok]
      · simp
      · intro h
        cases h

/-- Witness of C5 on the sample engine: `open` of an existing database hands
the callback a null error and a handle on the native database 7; `repair` of a
missing one hands it the engine's text; a write refused with NotFound is an
error. -/
theorem status_to_callback_witness :
    (∃ error result,
      AfterOpen (AsyncOpen sampleEngine sampleOpenOp)
        = Except.ok { fn := Value.function 1, argv := [error, result] } ∧
      error = Value.null ∧ ∃ cmp, result = Value.handle 7 cmp) ∧
    (∃ error,
      AfterDbOp (uv_work_cb.AsyncRepair.run sampleEngine sampleDbOp)
        = Except.ok { fn := Value.function 1, argv := [error] } ∧
      error = Value.error "Corruption: no manifest") ∧
    (∃ error,
      JHandle.WriteAfter
          (JHandle.WriteWork sampleDB WriteOp.New
            (fun _ => { wb_ := [BatchOp.del [1], BatchOp.del [2], BatchOp.del [3]],
                        readers := 0, writer := false })).1
          Value.null Value.undefined = (error, Value.undefined) ∧
      error = Value.error "NotFound: table") := by
  refine ⟨?_, ?_, ?_⟩
  · obtain ⟨_, error, result, h1, h2, _, h4⟩ :=
      (status_to_callback sampleHelpers sampleEngine sampleDB sampleArgs).1 sampleOpenOp rfl
    exact ⟨error, result, h1, h2.2 (by decide), h4 (by decide)⟩
  · obtain ⟨_, _, error, h1, _, h3⟩ :=
      (status_to_callback sampleHelpers sampleEngine sampleDB sampleArgsMissing).2.1
        uv_work_cb.AsyncRepair sampleDbOp rfl rfl
    exact ⟨error, h1, h3 (by decide)⟩
  · obtain ⟨_, error, h1, _, h3⟩ :=
      (status_to_callback sampleHelpers sampleEngine sampleDB sampleArgs).2.2 WriteOp.New
        (fun _ => { wb_ := [BatchOp.del [1], BatchOp.del [2], BatchOp.del [3]],
                    readers := 0, writer := false })
    exact ⟨error, h1, h3 (by decide)⟩

/-! ### Argument checks -/

/-- C8: whenever the argument check of `open`, `destroy`, `repair`, `get`,
`write`, `property` or `approximateSizes` fails, the call returns through
`ThrowTypeError` and queues no op, so that no engine call is made for it. -/
theorem argument_checks (H : Helpers) (args : List Value) :
    ((args.length ≠ 3 ∨ (arg args 0).IsString = false ∨ (arg args 2).IsFunction = false) →
      JHandle.Open H args = Call.ThrowTypeError "Invalid arguments" ∧
      (JHandle.Open H args).queued = none) ∧
    ((args.length ≠ 3 ∨ (arg args 0).IsString = false) →
      JHandle.Destroy H args = Call.ThrowTypeError "Invalid arguments" ∧
      (JHandle.Destroy H args).queued = none ∧
      JHandle.Repair H args = Call.ThrowTypeError "Invalid arguments" ∧
      (JHandle.Repair H args).queued = none) ∧
    ((args.length = 0 ∨ (arg args 0).IsBuffer = false) →
      JHandle.Read H args = Call.ThrowTypeError "Invalid arguments" ∧
      (JHandle.Read H args).queued = none) ∧
    ((args.length = 0 ∨ (arg args 0).IsBatch = false) →
      JHandle.Write H args = Call.ThrowTypeError "Invalid arguments" ∧
      (JHandle.Write H args).queued = none) ∧
    ((args.length = 0 ∨ (arg args 0).IsString = false) →
      JHandle.Property args = Call.ThrowTypeError "Invalid arguments" ∧
      (JHandle.Property args).queued = none) ∧
    ((args.length = 0 ∨ (arg args 0).IsArray = false ∨ (arg args 0).Length % 2 = 1) →
      JHandle.ApproximateSizes H args = Call.ThrowTypeError "Invalid arguments" ∧
      (JHandle.ApproximateSizes H args).queued = none) := by
  refine ⟨?_, ?_, ?_, ?_, ?_, ?_⟩
  · intro h
    have e : JHandle.Open H args = Call.ThrowTypeError "Invalid arguments" := by
      unfold JHandle.Open
      rw [if_pos]
      rcases h with h | h | h <;> simp [h]
    rw [e]
    exact ⟨rfl, rfl⟩
  · intro h
    have e : ∀ async, DbOp H args async = Call.ThrowTypeError "Invalid arguments" := by
      intro async
      unfold DbOp
      rw [if_pos]
      rcases h with h | h <;> simp [h]
    unfold JHandle.Destroy JHandle.Repair
    rw [e, e]
    exact ⟨rfl, rfl, rfl, rfl⟩
  · intro h
    have e : JHandle.Read H args = Call.ThrowTypeError "Invalid arguments" := by
      unfold JHandle.Read
      rw [if_pos]
      rcases h with h | h <;> simp [h]
    rw [e]
    exact ⟨rfl, rfl⟩
  · intro h
    have e : JHandle.Write H args = Call.ThrowTypeError "Invalid arguments" := by
      unfold JHandle.Write
      rw [if_pos]
      rcases h with h | h <;> simp [h]
    rw [e]
    exact ⟨rfl, rfl⟩
  · intro h
    have e : JHandle.Property args = Call.ThrowTypeError "Invalid arguments" := by
      unfold JHandle.Property
      rw [if_pos]
      rcases h with h | h <;> simp [h]
    rw [e]
    exact ⟨rfl, rfl⟩
  · intro h
    have e : JHandle.ApproximateSizes H args = Call.ThrowTypeError "Invalid arguments" := by
      unfold JHandle.ApproximateSizes
      rcases h with h | h | h
      · rw [if_pos]
        simp [h]
      · rw [if_pos]
        simp [h]
      · have ht := toInt_tmod_two_of_odd _ h
        split
        · rfl
        · rfl
    rw [e]
    exact ⟨rfl, rfl⟩

/-- Witness of C8: one rejected call per entry point. -/
theorem argument_checks_witness :
    JHandle.Open sampleHelpers [Value.string "/tmp/t", Value.undefined]
      = Call.ThrowTypeError "Invalid arguments" ∧
    JHandle.Destroy sampleHelpers [Value.number 3, Value.undefined, Value.function 1]
      = Call.ThrowTypeError "Invalid arguments" ∧
    JHandle.Repair sampleHelpers [Value.number 3, Value.undefined, Value.function 1]
      = Call.ThrowTypeError "Invalid arguments" ∧
    JHandle.Read sampleHelpers [Value.string "key", Value.function 1]
      = Call.ThrowTypeError "Invalid arguments" ∧
    JHandle.Write sampleHelpers [] = Call.ThrowTypeError "Invalid arguments" ∧
    JHandle.Property [Value.buffer [1], Value.function 1]
      = Call.ThrowTypeError "Invalid arguments" ∧
    JHandle.ApproximateSizes sampleHelpers
        [Value.array 1 (fun _ => some (Value.buffer [1])), Value.function 1]
      = Call.ThrowTypeError "Invalid arguments" :=
  ⟨((argument_checks sampleHelpers [Value.string "/tmp/t", Value.undefined]).1
      (Or.inl (by decide))).1,
   ((argument_checks sampleHelpers [Value.number 3, Value.undefined, Value.function 1]).2.1
      (Or.inr rfl)).1,
   ((argument_checks sampleHelpers [Value.number 3, Value.undefined, Value.function 1]).2.1
      (Or.inr rfl)).2.2.1,
   ((argument_checks sampleHelpers [Value.string "key", Value.function 1]).2.2.1
      (Or.inr rfl)).1,
   ((argument_checks sampleHelpers []).2.2.2.1 (Or.inl rfl)).1,
   ((argument_checks sampleHelpers [Value.buffer [1], Value.function 1]).2.2.2.2.1
      (Or.inr rfl)).1,
   ((argument_checks sampleHelpers
      [Value.array 1 (fun _ => some (Value.buffer [1])), Value.function 1]).2.2.2.2.2
      (Or.inr (Or.inr rfl))).1⟩

/-! ### iterator and snapshot ops -/

/-- C10: the worker phases of the iterator and snapshot ops leave the status
of the op as it was, so for an op whose status is ok at submission the
completion phase, started with `error = null` and `result = undefined`, takes
the success branch whatever the engine returned: the error stays null, the
result is the new iterator or snapshot instance, and the live-child count of
the parent handle has grown by exactly one. -/
theorem child_ops_succeed (db : DB) (self : JHandle) :
    (∀ op : IteratorOp,
      (JHandle.IteratorWork db op).status_ = op.status_ ∧
      (op.status_.ok = true →
        JHandle.IteratorAfter self (JHandle.IteratorWork db op) Value.null Value.undefined
          = ((self.RefIterator (db.NewIterator op.options_)).1, Value.null,
             Value.iterator (db.NewIterator op.options_)) ∧
        (JHandle.IteratorAfter self (JHandle.IteratorWork db op)
            Value.null Value.undefined).1.wrap.refs_ = self.wrap.refs_ + 1)) ∧
    (∀ op : SnapshotOp,
      (JHandle.SnapshotWork db op).status_ = op.status_ ∧
      (op.status_.ok = true →
        JHandle.SnapshotAfter self (JHandle.SnapshotWork db op) Value.null Value.undefined
          = ((self.RefSnapshot db.GetSnapshot).1, Value.null, Value.external db.GetSnapshot) ∧
        (JHandle.SnapshotAfter self (JHandle.SnapshotWork db op)
            Value.null Value.undefined).1.wrap.refs_ = self.wrap.refs_ + 1)) := by
  refine ⟨?_, ?_⟩
  · intro op
    refine ⟨rfl, ?_⟩
    intro hok
    have hok2 : (JHandle.IteratorWork db op).status_.ok = true := hok
    simp [JHandle.IteratorAfter, hok2]
    simp [JHandle.IteratorWork, JHandle.RefIterator, ObjectWrap.Ref]
  · intro op
    refine ⟨rfl, ?_⟩
    intro hok
    have hok2 : (JHandle.SnapshotWork db op).status_.ok = true := hok
    simp [JHandle.SnapshotAfter, hok2]
    simp [JHandle.SnapshotWork, JHandle.RefSnapshot, ObjectWrap.Ref]

/-- Witness of C10 on the sample database and a fresh handle: the ops as
created at submission complete with a null error, the iterator 11 or the
snapshot 12, and a live-child count of one. -/
theorem child_ops_succeed_witness :
    (JHandle.IteratorAfter JHandle.fresh (JHandle.IteratorWork sampleDB IteratorOp.New)
        Value.null Value.undefined).2 = (Value.null, Value.iterator 11) ∧
    (JHandle.IteratorAfter JHandle.fresh (JHandle.IteratorWork sampleDB IteratorOp.New)
        Value.null Value.undefined).1.wrap.refs_ = 1 ∧
    (JHandle.SnapshotAfter JHandle.fresh (JHandle.SnapshotWork sampleDB SnapshotOp.New)
        Value.null Value.undefined).2 = (Value.null, Value.external 12) ∧
    (JHandle.SnapshotAfter JHandle.fresh (JHandle.SnapshotWork sampleDB SnapshotOp.New)
        Value.null Value.undefined).1.wrap.refs_ = 1 :=
  ⟨congrArg Prod.snd
      (((child_ops_succeed sampleDB JHandle.fresh).1 IteratorOp.New).2 rfl).1,
   (((child_ops_succeed sampleDB JHandle.fresh).1 IteratorOp.New).2 rfl).2,
   congrArg Prod.snd
      (((child_ops_succeed sampleDB JHandle.fresh).2 SnapshotOp.New).2 rfl).1,
   (((child_ops_succeed sampleDB JHandle.fresh).2 SnapshotOp.New).2 rfl).2⟩

/-! ### approximateSizes: ranges and sizes -/

theorem toInt_of_lt (n : Nat) (h : n < 2 ^ 31) : toInt n = (n : Int) := by
  have h1 : n % 2 ^ 32 = n := Nat.mod_eq_of_lt (by omega)
  unfold toInt
  rw [h1, if_pos h]

theorem toInt_le (n : Nat) : toInt n ≤ 2 ^ 31 - 1 := by
  unfold toInt
  split <;> omega

theorem entry_of_lt (n : Nat) (h : n < 2 ^ 31 - 1) :
    JHandle.ApproximateSizesAfter.entry n = Value.integer n := by
  have h1 : n < INT_MAX := by
    unfold INT_MAX
    omega
  have h2 : toInt (toUInt32 n) = (n : Int) := by
    have : toUInt32 n = n := Nat.mod_eq_of_lt (by omega)
    rw [this]
    exact toInt_of_lt n (by omega)
  simp [JHandle.ApproximateSizesAfter.entry, h1, h2]

theorem entry_of_ge (n : Nat) (h : 2 ^ 31 - 1 ≤ n) :
    JHandle.ApproximateSizesAfter.entry n = Value.number n := by
  have h1 : ¬ n < INT_MAX := by
    unfold INT_MAX
    omega
  simp [JHandle.ApproximateSizesAfter.entry, h1]

theorem entry_integer_exact (n : Nat) (v : Int)
    (h : JHandle.ApproximateSizesAfter.entry n = Value.integer v) : v = (n : Int) := by
  by_cases hn : n < 2 ^ 31 - 1
  · rw [entry_of_lt n hn] at h
    cases h
    rfl
  · rw [entry_of_ge n (by omega)] at h
    cases h

theorem map_getD_range {α β : Type} (l : List α) (d : α) (f : α → β) :
    (List.range l.length).map (fun i => f (l.getD i d)) = l.map f := by
  apply List.ext_getElem
  · simp
  · intro n h1 h2
    simp at h1
    simp [List.getD_eq_getElem?_getD, List.getElem?_eq_getElem h1]

theorem arrayOf_Get (xs : List Value) (i : Nat) :
    (arrayOf xs).Get i = (xs.get? i).getD Value.undefined := rfl

theorem arrayOf_Length (xs : List Value) : (arrayOf xs).Length = xs.length := rfl

theorem After_Work (db : DB) (op : ApproximateSizesOp) (error result : Value)
    (hlen : op.ranges_.length < 2 ^ 31) :
    JHandle.ApproximateSizesAfter (JHandle.ApproximateSizesWork db op) error result
      = (error, arrayOf (op.ranges_.map fun r =>
          JHandle.ApproximateSizesAfter.entry (db.GetApproximateSize r))) := by
  have h1 : toInt op.ranges_.length = (op.ranges_.length : Int) := toInt_of_lt _ hlen
  have h2 := map_getD_range (op.ranges_.map db.GetApproximateSize) 0
    JHandle.ApproximateSizesAfter.entry
  simp only [List.length_map] at h2
  simp only [JHandle.ApproximateSizesAfter, JHandle.ApproximateSizesWork,
    DB.GetApproximateSizes, h1, Int.toNat_ofNat, List.take_length, h2, List.map_map]
  rfl

theorem pairs_length_le (array : Value) (len : Int) :
    (JHandle.ApproximateSizes.pairs array len).length ≤ (len.toNat + 1) / 2 := by
  unfold JHandle.ApproximateSizes.pairs
  exact (List.length_filterMap_le _ _).trans (by simp)

theorem ranges_length_lt (H : Helpers) (args : List Value) (op : ApproximateSizesOp)
    (h : JHandle.ApproximateSizes H args = Call.Run op) : op.ranges_.length < 2 ^ 31 := by
  unfold JHandle.ApproximateSizes at h
  split at h
  · cases h
  · split at h
    · cases h
    · cases h
      have h1 := pairs_length_le (arg args 0) (toInt (arg args 0).Length)
      have h2 := toInt_le (arg args 0).Length
      simp only [List.length_map]
      omega

/-- C2, as the code has it: the byte count `n` that the engine reports for a
submitted range is delivered by the completion phase as an `Integer` holding
`n` when `n < 2 ^ 31 - 1` (the test is `size < INT_MAX`), and as a `Number`
(the `double` cast of `n`) when `n ≥ 2 ^ 31 - 1`. -/
theorem approximateSizes_width (H : Helpers) (db : DB) (args : List Value)
    (op : ApproximateSizesOp) (hrun : JHandle.ApproximateSizes H args = Call.Run op)
    (i : Nat) (r : Range) (hr : op.ranges_.get? i = some r) :
    (db.GetApproximateSize r < 2 ^ 31 - 1 →
      (JHandle.ApproximateSizesAfter (JHandle.ApproximateSizesWork db op)
          Value.null Value.undefined).2.Get i
        = Value.integer (db.GetApproximateSize r)) ∧
    (2 ^ 31 - 1 ≤ db.GetApproximateSize r →
      (JHandle.ApproximateSizesAfter (JHandle.ApproximateSizesWork db op)
          Value.null Value.undefined).2.Get i
        = Value.number (db.GetApproximateSize r)) := by
  have hlen := ranges_length_lt H args op hrun
  have hget : (JHandle.ApproximateSizesAfter (JHandle.ApproximateSizesWork db op)
      Value.null Value.undefined).2.Get i
      = JHandle.ApproximateSizesAfter.entry (db.GetApproximateSize r) := by
    rw [After_Work db op _ _ hlen, arrayOf_Get]
    rw [List.get?_eq_getElem?] at hr
    simp [hr]
  rw [hget]
  exact ⟨entry_of_lt _, entry_of_ge _⟩

/-- Witness of C2, as the code has it: a range of 1002 bytes is delivered as
the integer 1002, a range of `2 ^ 31 - 1` bytes as a number. -/
theorem approximateSizes_width_witness :
    (JHandle.ApproximateSizesAfter
        (JHandle.ApproximateSizesWork sampleDB
          sampleRangeOp)
        Value.null Value.undefined).2.Get 0 = Value.integer 1002 ∧
    (JHandle.ApproximateSizesAfter
        (JHandle.ApproximateSizesWork sampleFullDB
          sampleRangeOp)
        Value.null Value.undefined).2.Get 0 = Value.number 2147483647 :=
  ⟨(approximateSizes_width sampleHelpers sampleDB sampleRangeArgs
      sampleRangeOp
      rfl 0 { start := [1], limit := [2, 3] } rfl).1 (by decide),
   (approximateSizes_width sampleHelpers sampleFullDB sampleRangeArgs
      sampleRangeOp
      rfl 0 { start := [1], limit := [2, 3] } rfl).2 (by decide)⟩

/-- C2 as stated fails at `n = 2 ^ 31 - 1`: that count is below `2 ^ 31`, and
the completion phase delivers it as a `Number`, not as an `Integer`. -/
theorem approximateSizes_width_counterexample :
    JHandle.ApproximateSizes sampleHelpers sampleRangeArgs = Call.Run sampleRangeOp ∧
    sampleFullDB.GetApproximateSize { start := [1], limit := [2, 3] } = 2147483647 ∧
    (2147483647 : Nat) < 2 ^ 31 ∧
    (JHandle.ApproximateSizesAfter
        (JHandle.ApproximateSizesWork sampleFullDB
          sampleRangeOp)
        Value.null Value.undefined).2.Get 0 = Value.number 2147483647 ∧
    ∀ v : Int,
      (JHandle.ApproximateSizesAfter
          (JHandle.ApproximateSizesWork sampleFullDB
            sampleRangeOp)
          Value.null Value.undefined).2.Get 0 ≠ Value.integer v := by
  have h : (JHandle.ApproximateSizesAfter
        (JHandle.ApproximateSizesWork sampleFullDB
          sampleRangeOp)
        Value.null Value.undefined).2.Get 0 = Value.number 2147483647 := rfl
  refine ⟨rfl, rfl, by decide, h, ?_⟩
  intro v hv
  rw [h] at hv
  cases hv

theorem pairs_of_present (n : Nat) (elems : Nat → Option Value) (k : Nat)
    (hall : ∀ i, i < 2 * k → (elems i).isSome = true) :
    JHandle.ApproximateSizes.pairs (Value.array n elems) ((2 * k : Nat) : Int)
      = (List.range k).map fun i =>
          ((Value.array n elems).Get (2 * i), (Value.array n elems).Get (2 * i + 1)) := by
  unfold JHandle.ApproximateSizes.pairs
  have hk : (((2 * k : Nat) : Int).toNat + 1) / 2 = k := by
    rw [Int.toNat_ofNat]
    omega
  rw [hk, ← List.filterMap_eq_map]
  apply List.filterMap_congr
  intro j hj
  have hj2 : j < k := List.mem_range.mp hj
  simp [Value.Has, hall (2 * j) (by omega), hall (2 * j + 1) (by omega)]

/-- C9, as the code has it: for an array of even length `2 * k` below `2 ^ 31`
in which every index is present, `approximateSizes` queues an op with exactly
`k` ranges, range `i` being made of elements `2 * i` and `2 * i + 1`; the
completion phase returns a null error and an array of exactly `k` entries,
entry `i` being the engine's size of range `i` in its delivered form; and a
size delivered as an integer is delivered exactly. -/
theorem approximateSizes_ranges (H : Helpers) (db : DB) (k : Nat) (elems : Nat → Option Value)
    (rest : List Value) (hk : 2 * k < 2 ^ 31)
    (hall : ∀ i, i < 2 * k → (elems i).isSome = true) :
    ∃ op, JHandle.ApproximateSizes H (Value.array (2 * k) elems :: rest) = Call.Run op ∧
      op.ranges_ = (List.range k).map (fun i =>
        { start := H.ToSlice ((elems (2 * i)).getD Value.undefined),
          limit := H.ToSlice ((elems (2 * i + 1)).getD Value.undefined) }) ∧
      op.ranges_.length = k ∧
      JHandle.ApproximateSizesAfter (JHandle.ApproximateSizesWork db op)
          Value.null Value.undefined
        = (Value.null, arrayOf (op.ranges_.map fun r =>
            JHandle.ApproximateSizesAfter.entry (db.GetApproximateSize r))) ∧
      (JHandle.ApproximateSizesAfter (JHandle.ApproximateSizesWork db op)
          Value.null Value.undefined).2.Length = k ∧
      ∀ (n : Nat) (v : Int),
        JHandle.ApproximateSizesAfter.entry n = Value.integer v → v = (n : Int) := by
  have hlen : toInt (2 * k) = ((2 * k : Nat) : Int) := toInt_of_lt _ hk
  have hpairs := pairs_of_present (2 * k) elems k hall
  have hrun : JHandle.ApproximateSizes H (Value.array (2 * k) elems :: rest)
      = Call.Run
        { ApproximateSizesOp.New with
          handles_ :=
            ((JHandle.ApproximateSizes.pairs (Value.array (2 * k) elems)
                ((2 * k : Nat) : Int)).map fun p => H.pins p.1 ++ H.pins p.2).flatten
          ranges_ :=
            (JHandle.ApproximateSizes.pairs (Value.array (2 * k) elems)
                ((2 * k : Nat) : Int)).map
              fun p => { start := H.ToSlice p.1, limit := H.ToSlice p.2 } } := by
    have hmod : ¬ (((2 * k : Nat) : Int).tmod 2 ≠ 0) := by
      have : ((2 * k : Nat) : Int).tmod 2 = 0 := by
        rw [Int.tmod_eq_emod (by omega) (by omega)]
        omega
      simp [this]
    unfold JHandle.ApproximateSizes
    simp only [arg, List.getD_cons_zero, Value.Length, Value.IsArray, hlen]
    rw [if_neg (by simp), if_neg hmod]
  refine ⟨_, hrun, ?_, ?_, ?_, ?_, entry_integer_exact⟩
  · rw [hpairs]
    simp [List.map_map, Value.Get, Function.comp_def]
  · rw [hpairs]
    simp
  · exact After_Work db _ _ _ (ranges_length_lt H _ _ hrun)
  · rw [After_Work db _ _ _ (ranges_length_lt H _ _ hrun), arrayOf_Length]
    rw [hpairs]
    simp

/-- Witness of C9, as the code has it: an array holding one range, and the
empty array, for which the completion phase returns the empty array. -/
theorem approximateSizes_ranges_witness :
    (∃ op, JHandle.ApproximateSizes sampleHelpers sampleRangeArgs = Call.Run op ∧
      op.ranges_ = [{ start := [1], limit := [2, 3] }] ∧
      (JHandle.ApproximateSizesAfter (JHandle.ApproximateSizesWork sampleDB op)
          Value.null Value.undefined).2.Length = 1) ∧
    (∃ op, JHandle.ApproximateSizes sampleHelpers [Value.array 0 (fun _ => none), Value.function 1]
        = Call.Run op ∧
      op.ranges_ = [] ∧
      JHandle.ApproximateSizesAfter (JHandle.ApproximateSizesWork sampleDB op)
          Value.null Value.undefined = (Value.null, arrayOf [])) := by
  refine ⟨?_, ?_⟩
  · obtain ⟨op, h1, h2, _, _, h5, _⟩ :=
      approximateSizes_ranges sampleHelpers sampleDB 1
        (fun i => if i = 0 then some (Value.buffer [1]) else some (Value.buffer [2, 3]))
        [Value.function 1] (by decide)
        (by
          intro i _
          by_cases h : i = 0 <;> simp [h])
    exact ⟨op, h1, h2, h5⟩
  · obtain ⟨op, h1, h2, _, h4, _, _⟩ :=
      approximateSizes_ranges sampleHelpers sampleDB 0 (fun _ => none)
        [Value.function 1] (by decide)
        (by
          intro i hi
          omega)
    have h2' : op.ranges_ = [] := h2
    rw [h2'] at h4
    exact ⟨op, h1, h2', h4⟩

/-- C9 as stated fails for an array of length `2 ^ 31` in which every index is
present: read into an `int` the length is negative, the loop over the array
does not run, and the op is queued with no range instead of `2 ^ 30`. -/
theorem approximateSizes_ranges_counterexample :
    sampleHugeArray.Length = 2 * 1073741824 ∧
    (∀ i, i < 2 * 1073741824 → sampleHugeArray.Has i = true) ∧
    toInt sampleHugeArray.Length = -2147483648 ∧
    ∃ op, JHandle.ApproximateSizes sampleHelpers [sampleHugeArray, Value.function 1]
        = Call.Run op ∧
      op.ranges_ = [] ∧
      op.ranges_.length ≠ 1073741824 :=
  ⟨rfl, fun _ _ => rfl, by decide, ApproximateSizesOp.New, rfl, rfl, by decide⟩

/-! ### The live-child count -/

theorem JHandle.fresh_consistent : JHandle.fresh.Consistent := by
  refine ⟨rfl, ?_, ?_⟩
  · simp [JHandle.fresh]
  · intro w hw
    simp [JHandle.fresh] at hw

theorem JHandle.RefIterator_consistent (self : JHandle) (it : Nat) (h : self.Consistent) :
    (self.RefIterator it).1.Consistent := by
  obtain ⟨h1, _, h3⟩ := h
  refine ⟨?_, ?_, ?_⟩
  · simp [JHandle.RefIterator, ObjectWrap.Ref, h1]
  · simp [JHandle.RefIterator, ObjectWrap.Ref]
  · intro w hw
    simp only [JHandle.RefIterator, List.mem_append, List.mem_singleton] at hw
    rcases hw with hw | hw
    · exact h3 w hw
    · subst hw
      exact ⟨fun _ => rfl, nofun⟩

theorem JHandle.RefSnapshot_consistent (self : JHandle) (snapshot : Nat) (h : self.Consistent)
    (hnn : snapshot ≠ 0) : (self.RefSnapshot snapshot).1.Consistent := by
  obtain ⟨h1, _, h3⟩ := h
  refine ⟨?_, ?_, ?_⟩
  · simp [JHandle.RefSnapshot, ObjectWrap.Ref, h1]
  · simp [JHandle.RefSnapshot, ObjectWrap.Ref]
  · intro w hw
    simp only [JHandle.RefSnapshot, List.mem_append, List.mem_singleton] at hw
    rcases hw with hw | hw
    · exact h3 w hw
    · subst hw
      exact ⟨nofun, fun _ => ⟨rfl, hnn⟩⟩

theorem JHandle.Unref_of_child (self : JHandle) (h : self.Consistent) (k : Nat) (w : WeakHandle)
    (hw : self.children.get? k = some w) :
    self.wrap.Unref
      = Except.ok { refs_ := self.wrap.refs_ - 1, weak := decide (self.wrap.refs_ - 1 = 0) } ∧
    0 < self.wrap.refs_ := by
  obtain ⟨h1, h2, _⟩ := h
  have hpos : 0 < self.wrap.refs_ := by
    rw [h1]
    exact List.length_pos_of_mem (List.get?_mem hw)
  have hweak : self.wrap.weak = false := by
    cases hb : self.wrap.weak
    · rfl
    · have := h2.mp hb
      omega
  have hne : ¬ self.wrap.refs_ = 0 := by omega
  exact ⟨by simp [ObjectWrap.Unref, hweak, hne], hpos⟩

theorem JHandle.collect_child (self : JHandle) (h : self.Consistent) (k : Nat) (w : WeakHandle)
    (hw : self.children.get? k = some w) :
    ∃ next, self.collect k = Except.ok next ∧ next.Consistent ∧
      next.wrap.refs_ + 1 = self.wrap.refs_ ∧
      next.children = self.children.eraseIdx k ∧
      (w.callback = WeakCallback.UnrefIterator → next.log = self.log ++ [Effect.Unref]) ∧
      (w.callback = WeakCallback.UnrefSnapshot →
        next.log = self.log ++ [Effect.ReleaseSnapshot w.object.Unwrap, Effect.Unref]) := by
  obtain ⟨hun, hpos⟩ := JHandle.Unref_of_child self h k w hw
  obtain ⟨h1, _, h3⟩ := h
  have hmem : w ∈ self.children := List.get?_mem hw
  rw [List.get?_eq_getElem?] at hw
  have hk : k < self.children.length := (List.getElem?_eq_some.mp hw).1
  have hcons : ∀ log : List Effect,
      JHandle.Consistent
        { wrap := { refs_ := self.wrap.refs_ - 1, weak := decide (self.wrap.refs_ - 1 = 0) }
          children := self.children.eraseIdx k
          log := log } := by
    intro log
    refine ⟨?_, ?_, ?_⟩
    · simp only [List.length_eraseIdx, if_pos hk]
      omega
    · simp
    · intro x hx
      exact h3 x (List.mem_of_mem_eraseIdx hx)
  cases hc : w.callback
  · have hobj := (h3 w hmem).1 hc
    refine ⟨_, ?_, hcons (self.log ++ [Effect.Unref]), ?_, rfl, fun _ => rfl, nofun⟩
    · simp [JHandle.collect, hw, hc, JHandle.UnrefIterator, hobj, hun]
    · show self.wrap.refs_ - 1 + 1 = self.wrap.refs_
      omega
  · obtain ⟨hext, hnn⟩ := (h3 w hmem).2 hc
    refine ⟨_, ?_, hcons (self.log ++ [Effect.ReleaseSnapshot w.object.Unwrap, Effect.Unref]),
      ?_, rfl, nofun, fun _ => rfl⟩
    · simp [JHandle.collect, hw, hc, JHandle.UnrefSnapshot, hext, hnn, hun]
    · show self.wrap.refs_ - 1 + 1 = self.wrap.refs_
      omega

theorem JHandle.step_consistent (self : JHandle) (h : self.Consistent) (e : ChildEvent)
    (hnn : ∀ s, e = ChildEvent.RefSnapshot s → s ≠ 0) :
    ∃ next, self.step e = Except.ok next ∧ next.Consistent := by
  cases e with
  | RefIterator it => exact ⟨_, rfl, JHandle.RefIterator_consistent self it h⟩
  | RefSnapshot s => exact ⟨_, rfl, JHandle.RefSnapshot_consistent self s h (hnn s rfl)⟩
  | collect k =>
    cases hw : self.children.get? k with
    | none =>
      refine ⟨self, ?_, h⟩
      rw [List.get?_eq_getElem?] at hw
      simp [JHandle.step, JHandle.collect, hw]
    | some w =>
      obtain ⟨next, hn, hc, _⟩ := JHandle.collect_child self h k w hw
      exact ⟨next, hn, hc⟩

theorem JHandle.run_consistent (events : List ChildEvent) :
    ∀ self : JHandle, self.Consistent →
      (∀ s, ChildEvent.RefSnapshot s ∈ events → s ≠ 0) →
      ∃ last, self.run events = Except.ok last ∧ last.Consistent := by
  induction events with
  | nil =>
    intro self h _
    exact ⟨self, rfl, h⟩
  | cons e es ih =>
    intro self h hnn
    obtain ⟨next, hstep, hnext⟩ := JHandle.step_consistent self h e
      (fun s hs => hnn s (by simp [hs]))
    obtain ⟨last, hrun, hlast⟩ := ih next hnext
      (fun s hs => hnn s (List.mem_cons_of_mem _ hs))
    exact ⟨last, by simp [JHandle.run, hstep, hrun], hlast⟩

/-- C7: after every run of iterator creations, snapshot creations (of non-null
snapshots, as the engine hands them out) and collections on a fresh handle, no
assertion has failed and the live-child count `refs_` is the number of children
created and not yet collected; it is zero exactly when no child is live; from
there a creation adds one child and one to the count, and the collection of a
live child removes it and takes exactly one from a count that was positive,
the collection of a snapshot first calling `ReleaseSnapshot` once, on that
snapshot. -/
theorem live_child_count (events : List ChildEvent)
    (hnn : ∀ s, ChildEvent.RefSnapshot s ∈ events → s ≠ 0) :
    ∃ self, JHandle.fresh.run events = Except.ok self ∧
      self.wrap.refs_ = self.children.length ∧
      (self.wrap.refs_ = 0 ↔ self.children = []) ∧
      (∀ it,
        (self.RefIterator it).1.wrap.refs_ = self.wrap.refs_ + 1 ∧
        (self.RefIterator it).1.children = self.children ++
          [{ object := Value.iterator it, callback := WeakCallback.UnrefIterator }]) ∧
      (∀ s,
        (self.RefSnapshot s).1.wrap.refs_ = self.wrap.refs_ + 1 ∧
        (self.RefSnapshot s).1.children = self.children ++
          [{ object := Value.external s, callback := WeakCallback.UnrefSnapshot }]) ∧
      (∀ k w, self.children.get? k = some w →
        ∃ next, self.collect k = Except.ok next ∧
          0 < self.wrap.refs_ ∧
          next.wrap.refs_ + 1 = self.wrap.refs_ ∧
          next.children = self.children.eraseIdx k ∧
          (w.callback = WeakCallback.UnrefIterator → next.log = self.log ++ [Effect.Unref]) ∧
          (∀ s, w = { object := Value.external s, callback := WeakCallback.UnrefSnapshot } →
            next.log = self.log ++ [Effect.ReleaseSnapshot s, Effect.Unref])) := by
  obtain ⟨self, hrun, hcons⟩ := JHandle.run_consistent events JHandle.fresh
    JHandle.fresh_consistent hnn
  refine ⟨self, hrun, hcons.1, ?_, fun it => ⟨rfl, rfl⟩, fun s => ⟨rfl, rfl⟩, ?_⟩
  · rw [hcons.1]
    exact List.length_eq_zero
  · intro k w hw
    obtain ⟨next, h1, _, h3, h4, h5, h6⟩ := JHandle.collect_child self hcons k w hw
    refine ⟨next, h1, by omega, h3, h4, h5, ?_⟩
    intro s hs
    subst hs
    exact h6 rfl

/-- Witness of C7: after an iterator and a snapshot are created and the
snapshot is collected, one child is live, the count is one, and the engine has
released snapshot 12 once, before the count went down. -/
theorem live_child_count_witness :
    ∃ self, JHandle.fresh.run sampleChildEvents = Except.ok self ∧
      self.wrap.refs_ = self.children.length ∧
      self.wrap.refs_ = 1 ∧
      self.log = [Effect.Ref, Effect.Ref, Effect.ReleaseSnapshot 12, Effect.Unref] := by
  obtain ⟨self, hrun, hcount, _⟩ := live_child_count sampleChildEvents
    (by
      intro s hs
      simp [sampleChildEvents] at hs
      omega)
  have hval : JHandle.fresh.run sampleChildEvents
      = Except.ok
          { wrap := { refs_ := 1, weak := false }
            children := [{ object := Value.iterator 11, callback := WeakCallback.UnrefIterator }]
            log := [Effect.Ref, Effect.Ref, Effect.ReleaseSnapshot 12, Effect.Unref] } := rfl
  rw [hval] at hrun
  cases hrun
  exact ⟨_, hval, hcount, rfl, rfl⟩

/-! ### write: the batch while an op is in flight -/

theorem filter_length_set {α : Type} (p : α → Bool) (l : List α) (i : Nat) (x y : α)
    (h : l.get? i = some x) :
    ((l.set i y).filter p).length + (if p x then 1 else 0)
      = (l.filter p).length + (if p y then 1 else 0) := by
  induction l generalizing i with
  | nil => simp at h
  | cons a t ih =>
    cases i with
    | zero =>
      simp at h
      subst h
      simp only [List.set_cons_zero, List.filter_cons]
      cases p a <;> cases p y <;> simp
    | succ j =>
      simp at h
      have := ih j (by simpa using h)
      simp only [List.set_cons_succ, List.filter_cons]
      cases p a <;> simp <;> omega

theorem Writes.holders_set (w : Writes) (ptr i : Nat) (x y : WriteOp × Phase)
    (h : w.ops.get? i = some x) :
    Writes.holders { w with ops := w.ops.set i y } ptr
        + (if (decide (x.1.batch_ = ptr) &&
              (decide (x.2 = Phase.locked) || decide (x.2 = Phase.written))) then 1 else 0)
      = w.holders ptr
        + (if (decide (y.1.batch_ = ptr) &&
              (decide (y.2 = Phase.locked) || decide (y.2 = Phase.written))) then 1 else 0) := by
  unfold Writes.holders
  exact filter_length_set _ w.ops i x y h

theorem Writes.start_consistent : Writes.start.Consistent := by
  intro ptr
  exact ⟨rfl, rfl⟩

theorem Writes.attempt_consistent (w : Writes) (h : w.Consistent) (ptr : Nat)
    (f : List BatchOp → List BatchOp) :
    (w.attempt ptr ((w.batches ptr).mutate f)).Consistent := by
  unfold Writes.attempt JBatch.mutate
  split
  · rename_i b hb
    split at hb
    · cases hb
    · cases hb
      intro q
      by_cases hq : q = ptr
      · subst hq
        simpa [Batches.set, Writes.holders] using h q
      · simpa [Batches.set, Writes.holders, hq] using h q
  · exact h

theorem Writes.step_agrees (H : Helpers) (db : DB) (w : Writes) (h : w.Consistent)
    (e : WriteEvent) : (w.step H db e).Consistent := by
  cases e with
  | write args =>
    simp only [Writes.step]
    split
    · intro ptr
      simpa [Writes.holders, List.filter_append] using h ptr
    · exact h
  | put ptr key value => exact Writes.attempt_consistent w h ptr _
  | del ptr key => exact Writes.attempt_consistent w h ptr _
  | clear ptr => exact Writes.attempt_consistent w h ptr _
  | worker i =>
    simp only [Writes.step]
    split
    · rename_i op hget
      intro ptr
      have hs := Writes.holders_set w ptr i (op, Phase.queued) (op, Phase.locked) hget
      have hp := h ptr
      by_cases hq : ptr = op.batch_
      · subst hq
        simp at hs
        simp only [JHandle.WriteWork.lock, Batches.set, JBatch.ReadLock, if_pos]
        refine ⟨?_, hp.2⟩
        show (w.batches op.batch_).readers + 1 = _
        rw [hp.1]
        exact hs.symm
      · have hq2 : ¬ op.batch_ = ptr := fun hh => hq hh.symm
        simp [hq2] at hs
        simp only [JHandle.WriteWork.lock, Batches.set, if_neg hq]
        exact ⟨hp.1.trans hs.symm, hp.2⟩
    · rename_i op hget
      intro ptr
      have hs := Writes.holders_set w ptr i (op, Phase.locked)
        (JHandle.WriteWork.write db op w.batches, Phase.written) hget
      have hp := h ptr
      simp [JHandle.WriteWork.write] at hs
      exact ⟨hp.1.trans hs.symm, hp.2⟩
    · rename_i op hget
      intro ptr
      have hs := Writes.holders_set w ptr i (op, Phase.written) (op, Phase.worked) hget
      have hp := h ptr
      by_cases hq : ptr = op.batch_
      · subst hq
        simp at hs
        simp only [JHandle.WriteWork.unlock, Batches.set, JBatch.ReadUnlock, if_pos]
        refine ⟨?_, hp.2⟩
        show (w.batches op.batch_).readers - 1
          = Writes.holders { w with ops := w.ops.set i (op, Phase.worked) } op.batch_
        rw [hp.1]
        omega
      · have hq2 : ¬ op.batch_ = ptr := fun hh => hq hh.symm
        simp [hq2] at hs
        simp only [JHandle.WriteWork.unlock, Batches.set, if_neg hq]
        exact ⟨hp.1.trans hs.symm, hp.2⟩
    · exact h
  | after i =>
    simp only [Writes.step]
    split
    · rename_i op hget
      intro ptr
      have hs := Writes.holders_set w ptr i (op, Phase.worked) (op, Phase.completed) hget
      have hp := h ptr
      simp at hs
      exact ⟨hp.1.trans hs.symm, hp.2⟩
    · exact h

theorem Writes.run_agrees (H : Helpers) (db : DB) (events : List WriteEvent) :
    ∀ w : Writes, w.Consistent → (Writes.run H db w events).Consistent := by
  induction events with
  | nil =>
    intro w h
    exact h
  | cons e es ih =>
    intro w h
    exact ih _ (Writes.step_agrees H db w h e)

theorem Writes.holders_pos (w : Writes) (i : Nat) (op : WriteOp) (ph : Phase)
    (hget : w.ops.get? i = some (op, ph)) (hph : ph = Phase.locked ∨ ph = Phase.written) :
    0 < w.holders op.batch_ := by
  unfold Writes.holders
  apply List.length_pos_of_mem (a := (op, ph))
  rw [List.mem_filter]
  refine ⟨List.get?_mem hget, ?_⟩
  rcases hph with hph | hph <;> simp [hph]

theorem JBatch.mutate_in_use (b : JBatch) (f : List BatchOp → List BatchOp)
    (h : 0 < b.readers) : b.mutate f = Except.error BatchError.BatchInUse := by
  simp [JBatch.mutate, h]

/-- C6, as the code has it: at every point of every interleaving at which a
submitted write op is between the `ReadLock` and the `ReadUnlock` of its
worker phase (the duration of the engine write), the batch of the op is held
in read mode (reader count above zero), so that a `put`, `delete` or `clear`
attempted on it at that point fails with `BatchInUse` and changes nothing. -/
theorem write_holds_batch (H : Helpers) (db : DB) (events : List WriteEvent) (i : Nat)
    (op : WriteOp) (ph : Phase)
    (hget : (Writes.run H db Writes.start events).ops.get? i = some (op, ph))
    (hph : ph = Phase.locked ∨ ph = Phase.written) :
    0 < ((Writes.run H db Writes.start events).batches op.batch_).readers ∧
    (∀ key value,
      ((Writes.run H db Writes.start events).batches op.batch_).Put key value
        = Except.error BatchError.BatchInUse ∧
      (Writes.run H db Writes.start events).step H db (WriteEvent.put op.batch_ key value)
        = Writes.run H db Writes.start events) ∧
    (∀ key,
      ((Writes.run H db Writes.start events).batches op.batch_).Del key
        = Except.error BatchError.BatchInUse ∧
      (Writes.run H db Writes.start events).step H db (WriteEvent.del op.batch_ key)
        = Writes.run H db Writes.start events) ∧
    (((Writes.run H db Writes.start events).batches op.batch_).Clear
        = Except.error BatchError.BatchInUse ∧
      (Writes.run H db Writes.start events).step H db (WriteEvent.clear op.batch_)
        = Writes.run H db Writes.start events) := by
  have hcons := Writes.run_agrees H db events Writes.start Writes.start_consistent
  have hpos : 0 < ((Writes.run H db Writes.start events).batches op.batch_).readers := by
    rw [(hcons op.batch_).1]
    exact Writes.holders_pos _ i op ph hget hph
  have hmut := fun f =>
    JBatch.mutate_in_use ((Writes.run H db Writes.start events).batches op.batch_) f hpos
  refine ⟨hpos, ?_, ?_, ?_⟩
  · intro key value
    have e := hmut fun wb => wb ++ [BatchOp.put key value]
    exact ⟨e, by simp [Writes.step, JBatch.Put, e, Writes.attempt]⟩
  · intro key
    have e := hmut fun wb => wb ++ [BatchOp.del key]
    exact ⟨e, by simp [Writes.step, JBatch.Del, e, Writes.attempt]⟩
  · have e := hmut fun _ => []
    exact ⟨e, by simp [Writes.step, JBatch.Clear, e, Writes.attempt]⟩

/-- Witness of C6, as the code has it: once a worker has taken the read lock
for the write of batch 5, the batch has one reader and a `put` on it fails
with `BatchInUse`. -/
theorem write_holds_batch_witness :
    ((Writes.run sampleHelpers sampleDB Writes.start
        [WriteEvent.write sampleWriteArgs, WriteEvent.worker 0]).batches 5).readers = 1 ∧
    ((Writes.run sampleHelpers sampleDB Writes.start
        [WriteEvent.write sampleWriteArgs, WriteEvent.worker 0]).batches 5).Put [1] [2]
      = Except.error BatchError.BatchInUse :=
  ⟨rfl,
   ((write_holds_batch sampleHelpers sampleDB
      [WriteEvent.write sampleWriteArgs, WriteEvent.worker 0] 0 sampleWriteOp Phase.locked
      rfl (Or.inl rfl)).2.1 [1] [2]).1⟩

/-- C6 as stated fails right after submission: when `write(batch)` has
returned and no worker has started, the op is queued and the batch has no
reader, so a `put` on it succeeds and changes its contents; the same holds
when the worker phase is over and the completion phase has not run yet. -/
theorem write_holds_batch_counterexample :
    (Writes.run sampleHelpers sampleDB Writes.start [WriteEvent.write sampleWriteArgs]).ops
      = [(sampleWriteOp, Phase.queued)] ∧
    ((Writes.run sampleHelpers sampleDB Writes.start
        [WriteEvent.write sampleWriteArgs]).batches 5).readers = 0 ∧
    ((Writes.run sampleHelpers sampleDB Writes.start
        [WriteEvent.write sampleWriteArgs]).batches 5).Put [1] [2]
      = Except.ok { wb_ := [BatchOp.put [1] [2]], readers := 0, writer := false } ∧
    ((Writes.run sampleHelpers sampleDB Writes.start
        [WriteEvent.write sampleWriteArgs, WriteEvent.put 5 [1] [2]]).batches 5).wb_
      = [BatchOp.put [1] [2]] ∧
    (Writes.run sampleHelpers sampleDB Writes.start
        [WriteEvent.write sampleWriteArgs, WriteEvent.worker 0, WriteEvent.worker 0,
         WriteEvent.worker 0]).ops = [(sampleWriteOp, Phase.worked)] ∧
    ((Writes.run sampleHelpers sampleDB Writes.start
        [WriteEvent.write sampleWriteArgs, WriteEvent.worker 0, WriteEvent.worker 0,
         WriteEvent.worker 0]).batches 5).readers = 0 :=
  ⟨rfl, rfl, rfl, rfl, rfl, rfl⟩

end NodeLevelDB
